import Mathlib

/-!
Verification of the fuse-xfs core against its specification.

The definitions below are shallow embeddings of the C sources:
  * `src/xfsprogs/libxfs/xfs_cksum.c` (CRC32C checksumming),
  * `src/xfsutil/xfsutil.c` (path walking, readdir, file reading, and the
    transactional mutation operations).

Machine integers are modelled as `Nat` with explicit masking where the C
code relies on 32-bit behaviour; buffers are lists or functions over `Nat`;
calls into external libxfs primitives are modelled by explicit oracle
environments recording each call's outcome.
-/

namespace FuseXfs

/-! ## CRC32C (src/xfsprogs/libxfs/xfs_cksum.c)

The 256-entry Castagnoli lookup table, copied verbatim from `crc32c_table`. -/

def crc32c_table : List Nat := [
  0x00000000, 0xF26B8303, 0xE13B70F7, 0x1350F3F4, 0xC79A971F, 0x35F1141C, 0x26A1E7E8, 0xD4CA64EB,
  0x8AD958CF, 0x78B2DBCC, 0x6BE22838, 0x9989AB3B, 0x4D43CFD0, 0xBF284CD3, 0xAC78BF27, 0x5E133C24,
  0x105EC76F, 0xE235446C, 0xF165B798, 0x030E349B, 0xD7C45070, 0x25AFD373, 0x36FF2087, 0xC494A384,
  0x9A879FA0, 0x68EC1CA3, 0x7BBCEF57, 0x89D76C54, 0x5D1D08BF, 0xAF768BBC, 0xBC267848, 0x4E4DFB4B,
  0x20BD8EDE, 0xD2D60DDD, 0xC186FE29, 0x33ED7D2A, 0xE727199F, 0x154C9A9C, 0x061C6968, 0xF477EA6B,
  0xAA64D64F, 0x580F554C, 0x4B5FA6B8, 0xB93425BB, 0x6DFE4150, 0x9F95C253, 0x8CC531A7, 0x7EAEB2A4,
  0x30E349EF, 0xC288CAEC, 0xD1D83918, 0x23B3BA1B, 0xF779DEF0, 0x05125DF3, 0x1642AE07, 0xE4292D04,
  0xBA3A1120, 0x48519223, 0x5B0161D7, 0xA96AE2D4, 0x7DA0863F, 0x8FCB053C, 0x9C9BF6C8, 0x6EF075CB,
  0x417B1DBC, 0xB3109EBF, 0xA0406D4B, 0x522BEE48, 0x86E18AA3, 0x748A09A0, 0x67DAFA54, 0x95B17957,
  0xCBA24573, 0x39C9C670, 0x2A993584, 0xD8F2B687, 0x0C38D26C, 0xFE53516F, 0xED03A29B, 0x1F682198,
  0x5125DAD3, 0xA34E59D0, 0xB01EAA24, 0x42752927, 0x96BF4DCC, 0x64D4CECF, 0x77843D3B, 0x85EFBE38,
  0xDBFC821C, 0x2997011F, 0x3AC7F2EB, 0xC8AC71E8, 0x1C661503, 0xEE0D9600, 0xFD5D65F4, 0x0F36E6F7,
  0x61C69362, 0x93AD1061, 0x80FDE395, 0x72966096, 0xA65C047D, 0x5437877E, 0x4767748A, 0xB50CF789,
  0xEB1FCBAD, 0x197448AE, 0x0A24BB5A, 0xF84F3859, 0x2C855CB2, 0xDEEEDFB1, 0xCDBE2C45, 0x3FD5AF46,
  0x7198540D, 0x83F3D70E, 0x90A324FA, 0x62C8A7F9, 0xB602C312, 0x44694011, 0x5739B3E5, 0xA55230E6,
  0xFB410CC2, 0x092A8FC1, 0x1A7A7C35, 0xE811FF36, 0x3CDB9BDD, 0xCEB018DE, 0xDDE0EB2A, 0x2F8B6829,
  0x82F63B78, 0x709DB87B, 0x63CD4B8F, 0x91A6C88C, 0x456CAC67, 0xB7072F64, 0xA457DC90, 0x563C5F93,
  0x082F63B7, 0xFA44E0B4, 0xE9141340, 0x1B7F9043, 0xCFB5F4A8, 0x3DDE77AB, 0x2E8E845F, 0xDCE5075C,
  0x92A8FC17, 0x60C37F14, 0x73938CE0, 0x81F80FE3, 0x55326B08, 0xA759E80B, 0xB4091BFF, 0x466298FC,
  0x1871A4D8, 0xEA1A27DB, 0xF94AD42F, 0x0B21572C, 0xDFEB33C7, 0x2D80B0C4, 0x3ED04330, 0xCCBBC033,
  0xA24BB5A6, 0x502036A5, 0x4370C551, 0xB11B4652, 0x65D122B9, 0x97BAA1BA, 0x84EA524E, 0x7681D14D,
  0x2892ED69, 0xDAF96E6A, 0xC9A99D9E, 0x3BC21E9D, 0xEF087A76, 0x1D63F975, 0x0E330A81, 0xFC588982,
  0xB21572C9, 0x407EF1CA, 0x532E023E, 0xA145813D, 0x758FE5D6, 0x87E466D5, 0x94B49521, 0x66DF1622,
  0x38CC2A06, 0xCAA7A905, 0xD9F75AF1, 0x2B9CD9F2, 0xFF56BD19, 0x0D3D3E1A, 0x1E6DCDEE, 0xEC064EED,
  0xC38D26C4, 0x31E6A5C7, 0x22B65633, 0xD0DDD530, 0x0417B1DB, 0xF67C32D8, 0xE52CC12C, 0x1747422F,
  0x49547E0B, 0xBB3FFD08, 0xA86F0EFC, 0x5A048DFF, 0x8ECEE914, 0x7CA56A17, 0x6FF599E3, 0x9D9E1AE0,
  0xD3D3E1AB, 0x21B862A8, 0x32E8915C, 0xC083125F, 0x144976B4, 0xE622F5B7, 0xF5720643, 0x07198540,
  0x590AB964, 0xAB613A67, 0xB831C993, 0x4A5A4A90, 0x9E902E7B, 0x6CFBAD78, 0x7FAB5E8C, 0x8DC0DD8F,
  0xE330A81A, 0x115B2B19, 0x020BD8ED, 0xF0605BEE, 0x24AA3F05, 0xD6C1BC06, 0xC5914FF2, 0x37FACCF1,
  0x69E9F0D5, 0x9B8273D6, 0x88D28022, 0x7AB90321, 0xAE7367CA, 0x5C18E4C9, 0x4F48173D, 0xBD23943E,
  0xF36E6F75, 0x0105EC76, 0x12551F82, 0xE03E9C81, 0x34F4F86A, 0xC69F7B69, 0xD5CF889D, 0x27A40B9E,
  0x79B737BA, 0x8BDCB4B9, 0x988C474D, 0x6AE7C44E, 0xBE2DA0A5, 0x4C4623A6, 0x5F16D052, 0xAD7D5351]

/-- Table lookup; indices are always reduced `&&& 0xFF` at the call site. -/
def crc32cTable (i : Nat) : Nat := crc32c_table.getD i 0

/-- `XFS_CRC_SEED` is `~(uint32)0`. -/
def XFS_CRC_SEED : Nat := 0xFFFFFFFF

/-- One step of the `while (length--)` loop in `xfs_crc32c`:
`crc = crc32c_table[(crc ^ *data++) & 0xFF] ^ (crc >> 8)`. -/
def crcStep (crc b : Nat) : Nat := crc32cTable ((crc ^^^ b) &&& 0xFF) ^^^ (crc >>> 8)

/-- `xfs_crc32c(crc, buffer, length)` over the byte list `data`. -/
def xfs_crc32c (crc : Nat) (data : List Nat) : Nat := data.foldl crcStep crc

/-- `xfs_start_cksum(buffer, length, cksum_offset)`: CRC of the bytes before
the checksum field, continued over the bytes after it
(`buffer + cksum_offset + 4`, `length - cksum_offset - 4` bytes). -/
def xfs_start_cksum (buffer : List Nat) (length cksum_offset : Nat) : Nat :=
  xfs_crc32c (xfs_crc32c XFS_CRC_SEED (buffer.take cksum_offset))
    ((buffer.drop (cksum_offset + 4)).take (length - cksum_offset - 4))

/-- `xfs_end_cksum`: `~crc` on a 32-bit value. -/
def xfs_end_cksum (crc : Nat) : Nat := 0xFFFFFFFF ^^^ crc

/-- `be32_to_cpu(*(__be32 *)(buffer + off))`: read a big-endian 32-bit word. -/
def be32_peek (buffer : List Nat) (off : Nat) : Nat :=
  buffer.getD off 0 * 2 ^ 24 + buffer.getD (off + 1) 0 * 2 ^ 16 +
    buffer.getD (off + 2) 0 * 2 ^ 8 + buffer.getD (off + 3) 0

/-- `*(__be32 *)(buffer + off) = cpu_to_be32(v)`: store a 32-bit word
big-endian. -/
def be32_poke (buffer : List Nat) (off v : Nat) : List Nat :=
  (((buffer.set off (v / 2 ^ 24 % 256)).set (off + 1) (v / 2 ^ 16 % 256)).set
      (off + 2) (v / 2 ^ 8 % 256)).set (off + 3) (v % 256)

/-- `xfs_verify_cksum(buffer, length, cksum_offset)`: 1 if the finalized CRC
matches the stored big-endian word, 0 otherwise. -/
def xfs_verify_cksum (buffer : List Nat) (length cksum_offset : Nat) : Nat :=
  if xfs_end_cksum (xfs_start_cksum buffer length cksum_offset) =
      be32_peek buffer cksum_offset then 1 else 0

/-- `xfs_update_cksum(buffer, length, cksum_offset)`: store the finalized CRC
big-endian into the checksum field. -/
def xfs_update_cksum (buffer : List Nat) (length cksum_offset : Nat) : List Nat :=
  be32_poke buffer cksum_offset
    (xfs_end_cksum (xfs_start_cksum buffer length cksum_offset))

/-! ### CRC32C lemmas -/

set_option maxRecDepth 2000 in
theorem crc32c_table_bound : ∀ x ∈ crc32c_table, x < 2 ^ 32 := by decide

theorem getD_lt_of_all {l : List Nat} (hl : ∀ x ∈ l, x < 2 ^ 32) :
    ∀ i : Nat, l.getD i 0 < 2 ^ 32 := by
  induction l with
  | nil => intro i; simp [List.getD]
  | cons a t ih =>
    intro i
    cases i with
    | zero => exact hl a (by simp)
    | succ i =>
      simpa [List.getD] using ih (fun x hx => hl x (by simp [hx])) i

theorem crc32cTable_lt (i : Nat) : crc32cTable i < 2 ^ 32 :=
  getD_lt_of_all crc32c_table_bound i

theorem crcStep_lt (crc b : Nat) (h : crc < 2 ^ 32) : crcStep crc b < 2 ^ 32 := by
  unfold crcStep
  have h1 : crc >>> 8 < 2 ^ 32 := by
    rw [Nat.shiftRight_eq_div_pow]
    exact Nat.lt_of_le_of_lt (Nat.div_le_self _ _) h
  exact Nat.xor_lt_two_pow (crc32cTable_lt _) h1

theorem xfs_crc32c_lt (data : List Nat) (crc : Nat) (h : crc < 2 ^ 32) :
    xfs_crc32c crc data < 2 ^ 32 := by
  induction data generalizing crc with
  | nil => exact h
  | cons b t ih => exact ih _ (crcStep_lt crc b h)

theorem xfs_start_cksum_lt (buffer : List Nat) (length cksum_offset : Nat) :
    xfs_start_cksum buffer length cksum_offset < 2 ^ 32 := by
  unfold xfs_start_cksum
  exact xfs_crc32c_lt _ _ (xfs_crc32c_lt _ _ (by norm_num [XFS_CRC_SEED]))

theorem xfs_end_cksum_lt (crc : Nat) (h : crc < 2 ^ 32) :
    xfs_end_cksum crc < 2 ^ 32 := by
  unfold xfs_end_cksum
  exact Nat.xor_lt_two_pow (by norm_num) h

/-- Setting an index at or past `n` does not change the first `n` elements. -/
theorem take_set_of_le {α : Type} (l : List α) :
    ∀ (n i : Nat) (v : α), n ≤ i → (l.set i v).take n = l.take n := by
  induction l with
  | nil => intro n i v _; rfl
  | cons a t ih =>
    intro n i v h
    cases n with
    | zero => rfl
    | succ n =>
      cases i with
      | zero => omega
      | succ i => simp only [List.set_cons_succ, List.take_succ_cons,
          ih n i v (by omega)]

/-- Setting an index before `n` does not change the elements from `n` on. -/
theorem drop_set_of_lt {α : Type} (l : List α) :
    ∀ (n i : Nat) (v : α), i < n → (l.set i v).drop n = l.drop n := by
  induction l with
  | nil => intro n i v _; rfl
  | cons a t ih =>
    intro n i v h
    cases n with
    | zero => omega
    | succ n =>
      cases i with
      | zero => simp [List.set]
      | succ i => simp only [List.set_cons_succ, List.drop_succ_cons,
          ih n i v (by omega)]

theorem getD_set_self {α : Type} (l : List α) (d : α) :
    ∀ (i : Nat) (v : α), i < l.length → (l.set i v).getD i d = v := by
  induction l with
  | nil => intro i v h; simp at h
  | cons a t ih =>
    intro i v h
    cases i with
    | zero => rfl
    | succ i => simpa [List.set, List.getD] using ih i v (by simpa using h)

theorem getD_set_ne {α : Type} (l : List α) (d : α) :
    ∀ (i j : Nat) (v : α), i ≠ j → (l.set i v).getD j d = l.getD j d := by
  induction l with
  | nil => intro i j v _; rfl
  | cons a t ih =>
    intro i j v h
    cases i with
    | zero =>
      cases j with
      | zero => omega
      | succ j => rfl
    | succ i =>
      cases j with
      | zero => rfl
      | succ j => simpa [List.set, List.getD] using ih i j v (by omega)

theorem be32_poke_length (buffer : List Nat) (off v : Nat) :
    (be32_poke buffer off v).length = buffer.length := by
  simp [be32_poke]

theorem be32_poke_take (buffer : List Nat) (off v : Nat) :
    (be32_poke buffer off v).take off = buffer.take off := by
  unfold be32_poke
  rw [take_set_of_le _ _ _ _ (by omega), take_set_of_le _ _ _ _ (by omega),
    take_set_of_le _ _ _ _ (by omega), take_set_of_le _ _ _ _ (by omega)]

theorem be32_poke_drop (buffer : List Nat) (off v : Nat) :
    (be32_poke buffer off v).drop (off + 4) = buffer.drop (off + 4) := by
  unfold be32_poke
  rw [drop_set_of_lt _ _ _ _ (by omega), drop_set_of_lt _ _ _ _ (by omega),
    drop_set_of_lt _ _ _ _ (by omega), drop_set_of_lt _ _ _ _ (by omega)]

theorem be32_peek_poke (buffer : List Nat) (off v : Nat)
    (hoff : off + 4 ≤ buffer.length) (hv : v < 2 ^ 32) :
    be32_peek (be32_poke buffer off v) off = v := by
  unfold be32_peek be32_poke
  rw [getD_set_ne _ _ _ _ _ (by omega), getD_set_ne _ _ _ _ _ (by omega),
    getD_set_ne _ _ _ _ _ (by omega),
    getD_set_self _ _ _ _ (by omega)]
  rw [getD_set_ne _ _ _ _ _ (by omega), getD_set_ne _ _ _ _ _ (by omega),
    getD_set_self _ _ _ _ (by simp only [List.length_set]; omega)]
  rw [getD_set_ne _ _ _ _ _ (by omega),
    getD_set_self _ _ _ _ (by simp only [List.length_set]; omega)]
  rw [getD_set_self _ _ _ _ (by simp only [List.length_set]; omega)]
  omega

theorem xfs_start_cksum_poke (buffer : List Nat) (c v : Nat) :
    xfs_start_cksum (be32_poke buffer c v) buffer.length c =
      xfs_start_cksum buffer buffer.length c := by
  unfold xfs_start_cksum
  rw [be32_poke_take, be32_poke_drop]

/-- **C4.** CRC32C round trip: after `xfs_update_cksum(b, len, c)` writes the
finalized checksum into the 4-byte slot at offset `c` (with `c + 4 ≤ len`),
`xfs_verify_cksum(b, len, c)` on the unmodified buffer returns 1. -/
theorem update_cksum_verify_cksum_roundtrip (b : List Nat) (c : Nat)
    (h : c + 4 ≤ b.length) :
    xfs_verify_cksum (xfs_update_cksum b b.length c) b.length c = 1 := by
  unfold xfs_update_cksum xfs_verify_cksum
  rw [xfs_start_cksum_poke,
    be32_peek_poke b c _ h (xfs_end_cksum_lt _ (xfs_start_cksum_lt b b.length c))]
  simp

/-- Witness for C4 at a concrete buffer. -/
theorem update_cksum_verify_cksum_roundtrip_witness :
    xfs_verify_cksum (xfs_update_cksum [7, 1, 2, 3, 4, 9] 6 1) 6 1 = 1 := by
  have h := update_cksum_verify_cksum_roundtrip [7, 1, 2, 3, 4, 9] 1 (by decide)
  simpa using h

/-! ### C5: start_cksum/verify_cksum against the spec-level description -/

/-- Modelled from the spec: the byte ranges `[0, cksum_offset)` followed by
`[cksum_offset+4, length)` of the buffer, i.e. everything except the 4-byte
checksum slot. -/
def spec_cksum_bytes (buffer : List Nat) (length cksum_offset : Nat) : List Nat :=
  buffer.take cksum_offset ++ (buffer.take length).drop (cksum_offset + 4)

/-- **C5.** `xfs_start_cksum` computes the CRC32C over the bytes
`[0, cksum_offset) ++ [cksum_offset+4, length)` — exactly the buffer with the
4-byte checksum slot excluded — and `xfs_verify_cksum` returns 1 exactly when
the bitwise complement of that value equals the big-endian 32-bit word stored
at `cksum_offset`. -/
theorem start_cksum_verify_cksum_spec (b : List Nat) (len c : Nat) :
    xfs_start_cksum b len c = xfs_crc32c XFS_CRC_SEED (spec_cksum_bytes b len c) ∧
      (xfs_verify_cksum b len c = 1 ↔
        xfs_end_cksum (xfs_crc32c XFS_CRC_SEED (spec_cksum_bytes b len c)) =
          be32_peek b c) := by
  have hstart : xfs_start_cksum b len c =
      xfs_crc32c XFS_CRC_SEED (spec_cksum_bytes b len c) := by
    unfold xfs_start_cksum spec_cksum_bytes xfs_crc32c
    rw [List.foldl_append]
    congr 1
    rw [List.drop_take]
    congr 1
  refine ⟨hstart, ?_⟩
  unfold xfs_verify_cksum
  rw [hstart]
  by_cases hc : xfs_end_cksum (xfs_crc32c XFS_CRC_SEED (spec_cksum_bytes b len c)) =
      be32_peek b c
  · simp [hc]
  · simp [hc]

/-! ## Common model for src/xfsutil/xfsutil.c

Error numbers (numeric values of the build platform; only their being
nonzero and pairwise distinct matters) and mode bits. -/

def EPERM : Nat := 1
def ENOENT : Nat := 2
def EIO : Nat := 5
def ENOMEM : Nat := 12
def EEXIST : Nat := 17
def ENOTDIR : Nat := 20
def EISDIR : Nat := 21
def EINVAL : Nat := 22
def ENOSPC : Nat := 28
def EROFS : Nat := 30
def EMLINK : Nat := 31
def ENAMETOOLONG : Nat := 36
def ENOTEMPTY : Nat := 39

def S_IFMT : Nat := 0xF000
def S_IFDIR : Nat := 0x4000
def S_IFREG : Nat := 0x8000
def S_IFLNK : Nat := 0xA000
def S_ISUID : Nat := 0x800
def S_ISGID : Nat := 0x400

def S_ISDIR (m : Nat) : Bool := m &&& S_IFMT == S_IFDIR
def S_ISREG (m : Nat) : Bool := m &&& S_IFMT == S_IFREG
def S_ISLNK (m : Nat) : Bool := m &&& S_IFMT == S_IFLNK

def MAXNAMELEN : Nat := 256
def MAXPATHLEN : Nat := 1024
def XFS_MAXLINK : Nat := 2 ^ 31 - 1
def XFS_MOUNT_RDONLY_FLAG : Nat := 0x80000000

/-- The fields of `xfs_mount_t` that the modelled code reads. -/
structure Mount where
  m_flags : Nat
  sb_blocksize : Nat
deriving DecidableEq

/-- `xfs_is_readonly(mp)` for a non-NULL mount
(`(mp->m_flags & XFS_MOUNT_RDONLY_FLAG) != 0`). -/
def xfs_is_readonly (mp : Mount) : Bool :=
  (mp.m_flags &&& XFS_MOUNT_RDONLY_FLAG) != 0

/-- A live directory entry other than `.` and `..`. -/
structure DirEntry where
  name : String
  ftype : Nat
deriving DecidableEq

/-- The in-memory inode fields (`ip->i_d.*`, `ip->i_ino`) the modelled code
reads or writes.  `entries` lists the directory's live entries other than
`.` and `..`; the mutation code under verification never inspects it, which
is exactly what claim C1 is about — it is carried so that directory
emptiness can be stated. -/
structure Inode where
  i_ino : Nat
  di_mode : Nat
  di_nlink : Nat
  di_uid : Nat
  di_gid : Nat
  di_size : Nat
  di_atime : Nat
  di_mtime : Nat
  di_ctime : Nat
  entries : List DirEntry
deriving DecidableEq

/-- `libxfs_ichgtime(ip, XFS_ICHGTIME_MOD | XFS_ICHGTIME_CHG)`. -/
def ichgtime_mod_chg (ip : Inode) (now : Nat) : Inode :=
  { ip with di_mtime := now, di_ctime := now }

/-- `libxfs_ichgtime(ip, XFS_ICHGTIME_CHG)`. -/
def ichgtime_chg (ip : Inode) (now : Nat) : Inode :=
  { ip with di_ctime := now }

/-- Oracle environment: the outcome of each call the top-level operations
make into libxfs.  A `Nat` error field is the (positive) errno the call
returns, 0 meaning success. -/
structure Env where
  now : Nat
  transAllocOk : Bool
  reserveErr : Nat
  lookupErr : Nat
  lookupIno : Nat
  igetErr : Nat
  igetInode : Inode
  lookup2Err : Nat
  iget2Err : Nat
  iget2Inode : Inode
  inodeAllocErr : Nat
  freshInode : Inode
  dirInitErr : Nat
  createnameErr : Nat
  removenameErr : Nat
  removename2Err : Nat
  replaceErr : Nat
  bunmapiErr : Nat
  bmapiErr : Nat
  bmapiNmap : Nat
  bmapiHole : Bool
  getBufOk : Bool
  iforkDsize : Nat
  bmapFinishErr : Nat
  commitErr : Nat
deriving DecidableEq

/-- `XFS_B_TO_FSB`: bytes to filesystem blocks, rounding up. -/
def XFS_B_TO_FSB (mp : Mount) (b : Nat) : Nat :=
  (b + mp.sb_blocksize - 1) / mp.sb_blocksize

/-- `XFS_B_TO_FSBT`: bytes to filesystem blocks, truncating. -/
def XFS_B_TO_FSBT (mp : Mount) (b : Nat) : Nat := b / mp.sb_blocksize

/-! ### Attribute-setting operations

The leading `ip == NULL` guards of the C functions have no counterpart: an
`Inode` value always exists.  `mp` is `ip->i_mount`.  `mode_t` is 16 bits
wide on the target platform, so `~S_IFMT` is `S_IFMT ^^^ 0xFFFF`. -/

/-- `xfs_setattr_mode(ip, mode)`. -/
def xfs_setattr_mode (env : Env) (mp : Mount) (ip : Inode) (mode : Nat) :
    Int × Inode :=
  if xfs_is_readonly mp then (-(EROFS : Int), ip)
  else if ¬env.transAllocOk then (-(ENOMEM : Int), ip)
  else if env.reserveErr ≠ 0 then (-(env.reserveErr : Int), ip)
  else
    let ip := { ip with di_mode :=
      (ip.di_mode &&& S_IFMT) ||| (mode &&& (S_IFMT ^^^ 0xFFFF)) }
    let ip := ichgtime_chg ip env.now
    if env.commitErr ≠ 0 then (-(env.commitErr : Int), ip) else (0, ip)

/-- `xfs_setattr_owner(ip, uid, gid)`; the `(uid_t)-1` / `(gid_t)-1`
"do not change" sentinels are modelled by `none`. -/
def xfs_setattr_owner (env : Env) (mp : Mount) (ip : Inode)
    (uid gid : Option Nat) : Int × Inode :=
  if xfs_is_readonly mp then (-(EROFS : Int), ip)
  else if ¬env.transAllocOk then (-(ENOMEM : Int), ip)
  else if env.reserveErr ≠ 0 then (-(env.reserveErr : Int), ip)
  else
    let ip := match uid with
      | some u => { ip with di_uid := u }
      | none => ip
    let ip := match gid with
      | some g => { ip with di_gid := g }
      | none => ip
    let ip := if uid.isSome ∨ gid.isSome then
        { ip with di_mode := ip.di_mode &&& ((S_ISUID ||| S_ISGID) ^^^ 0xFFFF) }
      else ip
    let ip := ichgtime_chg ip env.now
    if env.commitErr ≠ 0 then (-(env.commitErr : Int), ip) else (0, ip)

/-- `xfs_setattr_time(ip, atime, mtime)`; NULL pointers are `none`.
(The `UTIME_NOW`/`UTIME_OMIT` refinement inside the `#ifdef UTIME_NOW`
block is not modelled; the plain assignment branch is.) -/
def xfs_setattr_time (env : Env) (mp : Mount) (ip : Inode)
    (atime mtime : Option Nat) : Int × Inode :=
  if xfs_is_readonly mp then (-(EROFS : Int), ip)
  else if ¬env.transAllocOk then (-(ENOMEM : Int), ip)
  else if env.reserveErr ≠ 0 then (-(env.reserveErr : Int), ip)
  else
    let ip := match atime with
      | some t => { ip with di_atime := t }
      | none => ip
    let ip := match mtime with
      | some t => { ip with di_mtime := t }
      | none => ip
    let ip := ichgtime_chg ip env.now
    if env.commitErr ≠ 0 then (-(env.commitErr : Int), ip) else (0, ip)

/-- `xfs_truncate_file(ip, size)`. -/
def xfs_truncate_file (env : Env) (mp : Mount) (ip : Inode) (size : Nat) :
    Int × Inode :=
  if xfs_is_readonly mp then (-(EROFS : Int), ip)
  else if ¬(S_ISREG ip.di_mode) then (-(EINVAL : Int), ip)
  else if ¬env.transAllocOk then (-(ENOMEM : Int), ip)
  else if env.reserveErr ≠ 0 then (-(env.reserveErr : Int), ip)
  else if size < ip.di_size ∧ XFS_B_TO_FSB mp size < XFS_B_TO_FSB mp ip.di_size ∧
      env.bunmapiErr ≠ 0 then
    (-(env.bunmapiErr : Int), ip)
  else
    let ip := { ip with di_size := size }
    let ip := ichgtime_mod_chg ip env.now
    if env.bmapFinishErr ≠ 0 then (-(env.bmapFinishErr : Int), ip)
    else if env.commitErr ≠ 0 then (-(env.commitErr : Int), ip)
    else (0, ip)

/-! ### Create / remove / link / symlink / rename

Each returns its error code together with the final in-memory state of the
inodes it touched (`none` where the operation never obtained the inode).
Transaction cancel does not restore in-memory inode fields, so error paths
return whatever field values were in place when the operation bailed out —
exactly as in the C code. -/

/-- `xfs_create_file(mp, dp, name, mode, rdev)`.  Result: error code, final
parent state, and the created inode (on success). -/
def xfs_create_file (env : Env) (mp : Mount) (dp : Inode) (name : String)
    (mode _rdev : Nat) : Int × Inode × Option Inode :=
  if xfs_is_readonly mp then (-(EROFS : Int), dp, none)
  else if ¬(S_ISDIR dp.di_mode) then (-(ENOTDIR : Int), dp, none)
  else if name.length = 0 ∨ name.length > MAXNAMELEN then (-(EINVAL : Int), dp, none)
  else if env.lookupErr = 0 then (-(EEXIST : Int), dp, none)
  else if ¬env.transAllocOk then (-(ENOMEM : Int), dp, none)
  else if env.reserveErr ≠ 0 then (-(env.reserveErr : Int), dp, none)
  else if env.inodeAllocErr ≠ 0 then (-(env.inodeAllocErr : Int), dp, none)
  else
    let ip := { env.freshInode with di_mode := mode, di_nlink := 1 }
    if env.createnameErr ≠ 0 then (-(env.createnameErr : Int), dp, none)
    else
      let dp := ichgtime_mod_chg dp env.now
      if env.bmapFinishErr ≠ 0 then (-(env.bmapFinishErr : Int), dp, none)
      else if env.commitErr ≠ 0 then (-(env.commitErr : Int), dp, none)
      else (0, dp, some ip)

/-- `xfs_create_dir(mp, dp, name, mode)`.  `libxfs_inode_alloc` is called
with nlink 1 and mode `(mode & ~S_IFMT) | S_IFDIR`; the new directory's
nlink is then incremented for `.`, and the parent's nlink for `..`. -/
def xfs_create_dir (env : Env) (mp : Mount) (dp : Inode) (name : String)
    (mode : Nat) : Int × Inode × Option Inode :=
  if xfs_is_readonly mp then (-(EROFS : Int), dp, none)
  else if ¬(S_ISDIR dp.di_mode) then (-(ENOTDIR : Int), dp, none)
  else if name.length = 0 ∨ name.length > MAXNAMELEN then (-(EINVAL : Int), dp, none)
  else if env.lookupErr = 0 then (-(EEXIST : Int), dp, none)
  else if ¬env.transAllocOk then (-(ENOMEM : Int), dp, none)
  else if env.reserveErr ≠ 0 then (-(env.reserveErr : Int), dp, none)
  else if env.inodeAllocErr ≠ 0 then (-(env.inodeAllocErr : Int), dp, none)
  else
    let ip := { env.freshInode with
      di_mode := (mode &&& (S_IFMT ^^^ 0xFFFF)) ||| S_IFDIR, di_nlink := 1 }
    let ip := { ip with di_nlink := ip.di_nlink + 1 }
    if env.dirInitErr ≠ 0 then (-(env.dirInitErr : Int), dp, none)
    else if env.createnameErr ≠ 0 then (-(env.createnameErr : Int), dp, none)
    else
      let dp := { dp with di_nlink := dp.di_nlink + 1 }
      let dp := ichgtime_mod_chg dp env.now
      if env.bmapFinishErr ≠ 0 then (-(env.bmapFinishErr : Int), dp, none)
      else if env.commitErr ≠ 0 then (-(env.commitErr : Int), dp, none)
      else (0, dp, some ip)

/-- `xfs_dir_check_empty(dp)`: the emptiness check used by rmdir/rename.
It inspects only the mode and the link count — never `entries`. -/
def xfs_dir_check_empty (dp : Inode) : Int :=
  if ¬(S_ISDIR dp.di_mode) then -(ENOTDIR : Int)
  else if dp.di_nlink > 2 then 1
  else 0

/-- The transactional tail of `xfs_remove_file` (from the `EISDIR` check
on), shared by both the caller-supplied-inode and lookup paths. -/
def xfs_remove_file_trans (env : Env) (dp ip : Inode) : Int × Inode × Option Inode :=
  if S_ISDIR ip.di_mode then (-(EISDIR : Int), dp, some ip)
  else if ¬env.transAllocOk then (-(ENOMEM : Int), dp, some ip)
  else if env.reserveErr ≠ 0 then (-(env.reserveErr : Int), dp, some ip)
  else if env.removenameErr ≠ 0 then (-(env.removenameErr : Int), dp, some ip)
  else
    let ip := { ip with di_nlink := ip.di_nlink - 1 }
    let dp := ichgtime_mod_chg dp env.now
    let ip := ichgtime_chg ip env.now
    if env.bmapFinishErr ≠ 0 then (-(env.bmapFinishErr : Int), dp, some ip)
    else if env.commitErr ≠ 0 then (-(env.commitErr : Int), dp, some ip)
    else (0, dp, some ip)

/-- `xfs_remove_file(mp, dp, name, ip)`; `ipArg = none` models the
`ip == NULL` lookup path. -/
def xfs_remove_file (env : Env) (mp : Mount) (dp : Inode) (name : String)
    (ipArg : Option Inode) : Int × Inode × Option Inode :=
  if xfs_is_readonly mp then (-(EROFS : Int), dp, none)
  else if ¬(S_ISDIR dp.di_mode) then (-(ENOTDIR : Int), dp, none)
  else if name.length = 0 ∨ name.length > MAXNAMELEN then (-(EINVAL : Int), dp, none)
  else
    match ipArg with
    | some ip => xfs_remove_file_trans env dp ip
    | none =>
      if env.lookupErr ≠ 0 then (-(ENOENT : Int), dp, none)
      else if env.igetErr ≠ 0 then (-(env.igetErr : Int), dp, none)
      else xfs_remove_file_trans env dp env.igetInode

/-- The transactional tail of `xfs_remove_dir` (from the `ENOTDIR` check on
the target), shared by both inode-argument paths. -/
def xfs_remove_dir_trans (env : Env) (dp ip : Inode) : Int × Inode × Option Inode :=
  if ¬(S_ISDIR ip.di_mode) then (-(ENOTDIR : Int), dp, some ip)
  else if ip.di_nlink > 2 then (-(ENOTEMPTY : Int), dp, some ip)
  else if xfs_dir_check_empty ip > 0 then (-(ENOTEMPTY : Int), dp, some ip)
  else if xfs_dir_check_empty ip < 0 then (xfs_dir_check_empty ip, dp, some ip)
  else if ¬env.transAllocOk then (-(ENOMEM : Int), dp, some ip)
  else if env.reserveErr ≠ 0 then (-(env.reserveErr : Int), dp, some ip)
  else if env.removenameErr ≠ 0 then (-(env.removenameErr : Int), dp, some ip)
  else
    let dp := { dp with di_nlink := dp.di_nlink - 1 }
    let ip := { ip with di_nlink := 0 }
    let dp := ichgtime_mod_chg dp env.now
    let ip := ichgtime_chg ip env.now
    if env.bmapFinishErr ≠ 0 then (-(env.bmapFinishErr : Int), dp, some ip)
    else if env.commitErr ≠ 0 then (-(env.commitErr : Int), dp, some ip)
    else (0, dp, some ip)

/-- `xfs_remove_dir(mp, dp, name, ip)`; `ipArg = none` models the
`ip == NULL` lookup path. -/
def xfs_remove_dir (env : Env) (mp : Mount) (dp : Inode) (name : String)
    (ipArg : Option Inode) : Int × Inode × Option Inode :=
  if xfs_is_readonly mp then (-(EROFS : Int), dp, none)
  else if ¬(S_ISDIR dp.di_mode) then (-(ENOTDIR : Int), dp, none)
  else if name.length = 0 ∨ name.length > MAXNAMELEN then (-(EINVAL : Int), dp, none)
  else
    match ipArg with
    | some ip => xfs_remove_dir_trans env dp ip
    | none =>
      if env.lookupErr ≠ 0 then (-(ENOENT : Int), dp, none)
      else if env.igetErr ≠ 0 then (-(env.igetErr : Int), dp, none)
      else xfs_remove_dir_trans env dp env.igetInode

/-- `xfs_create_link(mp, ip, newparent, newname)`.  Result: error code,
final target state, final parent state. -/
def xfs_create_link (env : Env) (mp : Mount) (ip newparent : Inode)
    (newname : String) : Int × Inode × Inode :=
  if xfs_is_readonly mp then (-(EROFS : Int), ip, newparent)
  else if ¬(S_ISDIR newparent.di_mode) then (-(ENOTDIR : Int), ip, newparent)
  else if S_ISDIR ip.di_mode then (-(EPERM : Int), ip, newparent)
  else if ip.di_nlink ≥ XFS_MAXLINK then (-(EMLINK : Int), ip, newparent)
  else if newname.length = 0 ∨ newname.length > MAXNAMELEN then
    (-(EINVAL : Int), ip, newparent)
  else if env.lookupErr = 0 then (-(EEXIST : Int), ip, newparent)
  else if ¬env.transAllocOk then (-(ENOMEM : Int), ip, newparent)
  else if env.reserveErr ≠ 0 then (-(env.reserveErr : Int), ip, newparent)
  else
    let ip := { ip with di_nlink := ip.di_nlink + 1 }
    if env.createnameErr ≠ 0 then
      let ip := { ip with di_nlink := ip.di_nlink - 1 }
      (-(env.createnameErr : Int), ip, newparent)
    else
      let newparent := ichgtime_mod_chg newparent env.now
      let ip := ichgtime_chg ip env.now
      if env.bmapFinishErr ≠ 0 then (-(env.bmapFinishErr : Int), ip, newparent)
      else if env.commitErr ≠ 0 then (-(env.commitErr : Int), ip, newparent)
      else (0, ip, newparent)

/-- The common tail of `xfs_create_symlink` after the target bytes have been
stored: directory-entry creation, timestamps, deferred ops, commit. -/
def xfs_create_symlink_tail (env : Env) (parent ip : Inode) :
    Int × Inode × Option Inode :=
  if env.createnameErr ≠ 0 then (-(env.createnameErr : Int), parent, none)
  else
    let parent := ichgtime_mod_chg parent env.now
    if env.bmapFinishErr ≠ 0 then (-(env.bmapFinishErr : Int), parent, none)
    else if env.commitErr ≠ 0 then (-(env.commitErr : Int), parent, none)
    else (0, parent, some ip)

/-- `xfs_create_symlink(mp, parent, name, target, ipp)`. -/
def xfs_create_symlink (env : Env) (mp : Mount) (parent : Inode)
    (name target : String) : Int × Inode × Option Inode :=
  if xfs_is_readonly mp then (-(EROFS : Int), parent, none)
  else if ¬(S_ISDIR parent.di_mode) then (-(ENOTDIR : Int), parent, none)
  else if target.length = 0 ∨ target.length ≥ MAXPATHLEN then
    (-(ENAMETOOLONG : Int), parent, none)
  else if name.length = 0 ∨ name.length > MAXNAMELEN then
    (-(EINVAL : Int), parent, none)
  else if env.lookupErr = 0 then (-(EEXIST : Int), parent, none)
  else if ¬env.transAllocOk then (-(ENOMEM : Int), parent, none)
  else if env.reserveErr ≠ 0 then (-(env.reserveErr : Int), parent, none)
  else if env.inodeAllocErr ≠ 0 then (-(env.inodeAllocErr : Int), parent, none)
  else
    let ip := { env.freshInode with di_mode := S_IFLNK ||| 0o777, di_nlink := 1 }
    if target.length ≤ env.iforkDsize then
      let ip := { ip with di_size := target.length }
      xfs_create_symlink_tail env parent ip
    else if env.bmapiErr ≠ 0 then (-(env.bmapiErr : Int), parent, none)
    else if env.bmapiNmap = 0 ∨ env.bmapiHole then (-(ENOSPC : Int), parent, none)
    else if ¬env.getBufOk then (-( EIO : Int), parent, none)
    else
      let ip := { ip with di_size := target.length }
      xfs_create_symlink_tail env parent ip

/-- `xfs_rename_entry` from `libxfs_dir_createname` on. -/
def xfs_rename_tail (env : Env) (src_dp dst_dp src_ip : Inode)
    (dst_ip : Option Inode) (same_dir src_is_dir : Bool) :
    Int × Inode × Inode × Option Inode × Option Inode :=
  if env.createnameErr ≠ 0 then
    (-(env.createnameErr : Int), src_dp, dst_dp, some src_ip, dst_ip)
  else if env.removename2Err ≠ 0 then
    (-(env.removename2Err : Int), src_dp, dst_dp, some src_ip, dst_ip)
  else
    let moveDir := src_is_dir ∧ ¬same_dir
    let src_dp := if moveDir then
        { src_dp with di_nlink := src_dp.di_nlink - 1 } else src_dp
    let dst_dp := if moveDir then
        { dst_dp with di_nlink := dst_dp.di_nlink + 1 } else dst_dp
    if moveDir ∧ env.replaceErr ≠ 0 then
      (-(env.replaceErr : Int), src_dp, dst_dp, some src_ip, dst_ip)
    else
      let src_dp := ichgtime_mod_chg src_dp env.now
      let dst_dp := if same_dir then dst_dp else ichgtime_mod_chg dst_dp env.now
      let src_ip := ichgtime_chg src_ip env.now
      if env.bmapFinishErr ≠ 0 then
        (-(env.bmapFinishErr : Int), src_dp, dst_dp, some src_ip, dst_ip)
      else if env.commitErr ≠ 0 then
        (-(env.commitErr : Int), src_dp, dst_dp, some src_ip, dst_ip)
      else (0, src_dp, dst_dp, some src_ip, dst_ip)

/-- The transactional part of `xfs_rename_entry` (allocate/reserve through
commit, with the shared `abort:` label collapsed into each error exit). -/
def xfs_rename_trans (env : Env) (src_dp dst_dp src_ip : Inode)
    (dst_ip : Option Inode) : Int × Inode × Inode × Option Inode × Option Inode :=
  let same_dir := src_dp.i_ino == dst_dp.i_ino
  let src_is_dir := S_ISDIR src_ip.di_mode
  if ¬env.transAllocOk then (-(ENOMEM : Int), src_dp, dst_dp, some src_ip, dst_ip)
  else if env.reserveErr ≠ 0 then
    (-(env.reserveErr : Int), src_dp, dst_dp, some src_ip, dst_ip)
  else
    match dst_ip with
    | some d =>
      if env.removenameErr ≠ 0 then
        (-(env.removenameErr : Int), src_dp, dst_dp, some src_ip, some d)
      else
        let d := { d with di_nlink := d.di_nlink - 1 }
        let dst_dp := if S_ISDIR d.di_mode then
            { dst_dp with di_nlink := dst_dp.di_nlink - 1 } else dst_dp
        let d := if S_ISDIR d.di_mode then { d with di_nlink := 0 } else d
        let d := ichgtime_chg d env.now
        xfs_rename_tail env src_dp dst_dp src_ip (some d) same_dir src_is_dir
    | none => xfs_rename_tail env src_dp dst_dp src_ip none same_dir src_is_dir

/-- `xfs_rename_entry(mp, src_dp, src_name, dst_dp, dst_name)`.  Result:
error code, final source-parent and destination-parent states, and the
final states of the moved inode and (if it existed) the replaced
destination inode.  When `src_dp` and `dst_dp` are the same directory the C
code receives one pointer twice; here the caller passes equal records and
the `dst_dp` component of the result is the directory's final state. -/
def xfs_rename_entry (env : Env) (mp : Mount) (src_dp : Inode)
    (src_name : String) (dst_dp : Inode) (dst_name : String) :
    Int × Inode × Inode × Option Inode × Option Inode :=
  if xfs_is_readonly mp then (-(EROFS : Int), src_dp, dst_dp, none, none)
  else if src_name.length = 0 ∨ src_name.length > MAXNAMELEN ∨
      dst_name.length = 0 ∨ dst_name.length > MAXNAMELEN then
    (-(EINVAL : Int), src_dp, dst_dp, none, none)
  else if env.lookupErr ≠ 0 then (-(ENOENT : Int), src_dp, dst_dp, none, none)
  else if env.igetErr ≠ 0 then (-(env.igetErr : Int), src_dp, dst_dp, none, none)
  else
    let src_ip := env.igetInode
    if env.lookup2Err = 0 then
      if env.iget2Err ≠ 0 then
        (-(env.iget2Err : Int), src_dp, dst_dp, some src_ip, none)
      else
        let dst_ip := env.iget2Inode
        if S_ISDIR src_ip.di_mode ≠ S_ISDIR dst_ip.di_mode then
          ((if S_ISDIR dst_ip.di_mode then -(EISDIR : Int) else -(ENOTDIR : Int)),
            src_dp, dst_dp, some src_ip, some dst_ip)
        else if S_ISDIR dst_ip.di_mode ∧ dst_ip.di_nlink > 2 then
          (-(ENOTEMPTY : Int), src_dp, dst_dp, some src_ip, some dst_ip)
        else if S_ISDIR dst_ip.di_mode ∧ xfs_dir_check_empty dst_ip > 0 then
          (-(ENOTEMPTY : Int), src_dp, dst_dp, some src_ip, some dst_ip)
        else xfs_rename_trans env src_dp dst_dp src_ip (some dst_ip)
    else if env.lookup2Err ≠ ENOENT then
      (-(env.lookup2Err : Int), src_dp, dst_dp, some src_ip, none)
    else xfs_rename_trans env src_dp dst_dp src_ip none

/-! ### xfs_write_file

`xfs_write_file` runs one transaction per chunk; the per-iteration library
call outcomes form a step-indexed oracle.  The loop is given explicit fuel
(the C loop terminates because each committed chunk advances by at least
one byte); `none` means the fuel ran out.  Besides the C state the model
logs the `chunk_size` attempted by each transaction and the `copy_len` of
each committed chunk — pure instrumentation used to state claim C7. -/

structure WriteStep where
  transAllocOk : Bool
  reserveErr : Nat
  bmapiErr : Nat
  nmap : Nat
  mapHole : Bool
  mapBlockcount : Nat
  getBufOk : Bool
  bmapFinishErr : Nat
  commitErr : Nat
  now : Nat
deriving DecidableEq

/-- `return bytes_written > 0 ? (ssize_t)bytes_written : err`. -/
def write_retval (bytes_written : Nat) (err : Int) : Int :=
  if bytes_written > 0 then (bytes_written : Int) else err

def xfs_write_file_loop (mp : Mount) (env : Nat → WriteStep) :
    Nat → Nat → Inode → Nat → Nat → Nat → List Nat → List Nat →
    Option (Int × Inode × List Nat × List Nat)
  | 0, _, _, _, _, _, _, _ => none
  | fuel + 1, k, ip, bytes_written, cur_offset, size, chunks, committed =>
    if bytes_written < size then
      let remaining := size - bytes_written
      let chunk_size := min remaining (mp.sb_blocksize * 16)
      let start_fsb := XFS_B_TO_FSBT mp cur_offset
      let count0 := XFS_B_TO_FSB mp (cur_offset + chunk_size) - start_fsb
      let _count_fsb := if count0 = 0 then 1 else count0
      let st := env k
      let chunks := chunks ++ [chunk_size]
      if ¬st.transAllocOk then
        some (write_retval bytes_written (-(ENOMEM : Int)), ip, chunks, committed)
      else if st.reserveErr ≠ 0 then
        some (write_retval bytes_written (-(st.reserveErr : Int)), ip, chunks, committed)
      else if st.bmapiErr ≠ 0 then
        some (write_retval bytes_written (-(st.bmapiErr : Int)), ip, chunks, committed)
      else if st.nmap = 0 ∨ st.mapHole then
        some (write_retval bytes_written (-(ENOSPC : Int)), ip, chunks, committed)
      else if ¬st.getBufOk then
        some (write_retval bytes_written (-( EIO : Int)), ip, chunks, committed)
      else
        let buf_offset := cur_offset - start_fsb * mp.sb_blocksize
        let buf_avail := st.mapBlockcount * mp.sb_blocksize - buf_offset
        let copy_len := min chunk_size buf_avail
        let ip := if cur_offset + copy_len > ip.di_size then
            { ip with di_size := cur_offset + copy_len } else ip
        let ip := ichgtime_mod_chg ip st.now
        if st.bmapFinishErr ≠ 0 then
          some (write_retval bytes_written (-(st.bmapFinishErr : Int)), ip, chunks, committed)
        else if st.commitErr ≠ 0 then
          some (write_retval bytes_written (-(st.commitErr : Int)), ip, chunks, committed)
        else
          xfs_write_file_loop mp env fuel (k + 1) ip (bytes_written + copy_len)
            (cur_offset + copy_len) size chunks (committed ++ [copy_len])
    else some ((bytes_written : Int), ip, chunks, committed)

/-- `xfs_write_file(ip, buf, offset, size)`; `mp` is `ip->i_mount`. -/
def xfs_write_file (mp : Mount) (env : Nat → WriteStep) (fuel : Nat)
    (ip : Inode) (offset size : Nat) :
    Option (Int × Inode × List Nat × List Nat) :=
  if xfs_is_readonly mp then some (-(EROFS : Int), ip, [], [])
  else if ¬(S_ISREG ip.di_mode) then some (-(EINVAL : Int), ip, [], [])
  else xfs_write_file_loop mp env fuel 0 ip 0 offset size [] []

/-! ### find_path (path walker) and its reference counting

`libxfs_iget` increments the target inode's reference count and
`libxfs_iput` decrements it; the walk's effect on the counts is tracked as
a function from inode number to the net change. -/

structure WalkEnv where
  rootino : Nat
  mode : Nat → Nat
  lookupRes : Nat → List Char → Nat × Nat
  igetErr : Nat → Nat

def refIncr (s : Nat → Int) (i : Nat) : Nat → Int :=
  fun j => if j = i then s j + 1 else s j

def refDecr (s : Nat → Int) (i : Nat) : Nat → Int :=
  fun j => if j = i then s j - 1 else s j

/-- The `first_name`/`next_name` decomposition of a path: skip separator
runs, take each maximal run of non-separator characters as one component. -/
def path_components (path : List Char) : List (List Char) :=
  (path.splitOn '/').filter (fun c => c ≠ [])

/-- The `while (xname.len != 0)` loop of `find_path`.  Result: (return
value, inode handle handed to the caller on success) and the net reference
count changes. -/
def find_path_loop (env : WalkEnv) :
    List (List Char) → Nat → (Nat → Int) → (Int × Option Nat) × (Nat → Int)
  | [], current, s => ((0, some current), s)
  | c :: rest, current, s =>
    if env.mode current &&& S_IFDIR == 0 then
      ((-(ENOTDIR : Int), none), refDecr s current)
    else
      let lr := env.lookupRes current c
      if lr.1 ≠ 0 then
        (((lr.1 : Int), none), s)
      else
        let s := refDecr s current
        if env.igetErr lr.2 ≠ 0 then ((-( EIO : Int), none), s)
        else find_path_loop env rest lr.2 (refIncr s lr.2)

/-- `find_path(mp, path, result)`: walk `path` from the root inode (whose
initial `libxfs_iget` is asserted to succeed). -/
def find_path (env : WalkEnv) (path : List Char) : (Int × Option Nat) × (Nat → Int) :=
  find_path_loop env (path_components path) env.rootino
    (refIncr (fun _ => 0) env.rootino)

/-! ### xfs_readfile (extent/B-tree file reader)

The user buffer is a function from byte index to byte value; the disk is an
oracle giving the contents of each filesystem block (`libxfs_readbuf` plus
`XFS_FSB_TO_DADDR` collapsed into one lookup) and a per-block success flag.
All `off_t`/`int64_t` quantities are nonnegative on every path reachable
under the overlap guard, so they are modelled as `Nat`. -/

inductive DinodeFmt where
  | LOCAL
  | EXTENTS
  | BTREE
  | UUID
deriving DecidableEq

structure Extent where
  br_startoff : Nat
  br_startblock : Nat
  br_blockcount : Nat
deriving DecidableEq

structure FileInode where
  di_mode : Nat
  di_size : Nat
  di_format : DinodeFmt
  extents : List Extent
  ifExtentsLoaded : Bool

structure ReadEnv where
  readOk : Nat → Bool
  block : Nat → Nat → Nat
  ireadErr : Nat

/-- `extent_overlaps_buffer(mp, rec, offset, len)`. -/
def extent_overlaps_buffer (bsz : Nat) (rec : Extent) (offset len : Nat) : Bool :=
  let extent_size := rec.br_blockcount * bsz
  let extent_start := rec.br_startoff * bsz
  (extent_start ≤ offset ∧ offset < extent_start + extent_size) ∨
    (offset ≤ extent_start ∧ extent_start < offset + len)

/-- The `memcpy(buffer, src, copylen)` of one block iteration: `copylen`
bytes of filesystem block `blk` starting at `srcoff` land at buffer
positions `p, p+1, …` (the C code advances the `buffer` pointer, tracked
here as the position `p`). -/
def bufWrite (env : ReadEnv) (blk srcoff : Nat) (buffer : Nat → Nat)
    (p copylen : Nat) : Nat → Nat :=
  fun i => if p ≤ i ∧ i < p + copylen then env.block blk (srcoff + (i - p))
    else buffer i

/-- The `for (block=start; block<end; block++)` loop of
`copy_extent_to_buffer`: `cnt` counts the remaining blocks, `p` is the
current buffer-pointer position. -/
def copy_blocks (env : ReadEnv) (bsz : Nat) (rec : Extent) (offset len : Nat) :
    Nat → Nat → (Nat → Nat) → Nat → Int × (Nat → Nat)
  | 0, _, buffer, _ => (0, buffer)
  | cnt + 1, block, buffer, p =>
    if ¬env.readOk (rec.br_startblock + block) then (-( EIO : Int), buffer)
    else
      let block_start := (rec.br_startoff + block) * bsz
      let copylen1 := if block_start < offset then bsz - (offset - block_start) else bsz
      let copy_start := if block_start < offset then offset else block_start
      let srcoff := if block_start < offset then offset - block_start else 0
      let copylen := if block_start + bsz > offset + len then
          offset + len - copy_start else copylen1
      let stepped :=
        if copylen > 0 then
          (bufWrite env (rec.br_startblock + block) srcoff buffer p copylen,
            p + copylen)
        else (buffer, p)
      copy_blocks env bsz rec offset len cnt (block + 1) stepped.1 stepped.2

/-- `copy_extent_to_buffer(mp, rec, buffer, offset, len)`. -/
def copy_extent_to_buffer (env : ReadEnv) (bsz : Nat) (rec : Extent)
    (buffer : Nat → Nat) (offset len : Nat) : Int × (Nat → Nat) :=
  let extent_start := rec.br_startoff * bsz
  let start := if offset ≥ extent_start then (offset - extent_start) / bsz else 0
  let p := if offset ≥ extent_start then 0 else extent_start - offset
  let endB := min rec.br_blockcount ((offset + len - extent_start - 1) / bsz + 1)
  copy_blocks env bsz rec offset len (endB - start) start buffer p

/-- The shared extent-iteration loop of `xfs_readfile_extents` and
`xfs_readfile_btree` (after the size clamp): copy every overlapping extent,
then return the clamped length. -/
def xfs_readfile_iter (env : ReadEnv) (bsz : Nat) :
    List Extent → (Nat → Nat) → Nat → Nat → Int × (Nat → Nat)
  | [], buffer, _, len => ((len : Int), buffer)
  | rec :: rest, buffer, offset, len =>
    if extent_overlaps_buffer bsz rec offset len then
      let r := copy_extent_to_buffer env bsz rec buffer offset len
      if r.1 ≠ 0 then r
      else xfs_readfile_iter env bsz rest r.2 offset len
    else xfs_readfile_iter env bsz rest buffer offset len

/-- `xfs_readfile_extents(ip, buffer, offset, len, last_extent)`. -/
def xfs_readfile_extents (env : ReadEnv) (bsz : Nat) (ip : FileInode)
    (buffer : Nat → Nat) (offset len : Nat) : Int × (Nat → Nat) :=
  if offset ≥ ip.di_size then (0, buffer)
  else
    let len := if offset + len > ip.di_size then ip.di_size - offset else len
    xfs_readfile_iter env bsz ip.extents buffer offset len

/-- `xfs_readfile_btree(ip, buffer, offset, len, last_extent)`; the fork is
read in with `xfs_iread_extents` first when not yet loaded. -/
def xfs_readfile_btree (env : ReadEnv) (bsz : Nat) (ip : FileInode)
    (buffer : Nat → Nat) (offset len : Nat) : Int × (Nat → Nat) :=
  if offset ≥ ip.di_size then (0, buffer)
  else
    let len := if offset + len > ip.di_size then ip.di_size - offset else len
    if ¬ip.ifExtentsLoaded ∧ env.ireadErr ≠ 0 then ((env.ireadErr : Int), buffer)
    else xfs_readfile_iter env bsz ip.extents buffer offset len

/-- `xfs_readfile(ip, buffer, offset, len, last_extent)`: zero the buffer
(`memset(buffer, 0, len)`) and dispatch on the data-fork format. -/
def xfs_readfile (env : ReadEnv) (bsz : Nat) (ip : FileInode)
    (buffer : Nat → Nat) (offset len : Nat) : Int × (Nat → Nat) :=
  let buffer : Nat → Nat := fun i => if i < len then 0 else buffer i
  if ip.di_mode &&& S_IFREG == 0 then (-(EINVAL : Int), buffer)
  else
    match ip.di_format with
    | DinodeFmt.EXTENTS => xfs_readfile_extents env bsz ip buffer offset len
    | DinodeFmt.BTREE => xfs_readfile_btree env bsz ip buffer offset len
    | _ => (-( EIO : Int), buffer)

/-! ### readdir cursors (claim C10)

The three getdents variants are modelled at the level of their emission and
store sites: all layout-dependent quantities — the dataptr cookies computed
by `xfs_dir2_db_off_to_dataptr` / `xfs_dir2_byte_to_dataptr`, the sequence
of live/unused regions walked, and the emitter's buffer-full signal — are
oracles (claim C10 asserts the masking regardless of those values).  Each
model returns (return value, value stored into `*offset` if any, list of
cookies passed to `filldir`). -/

def XFS_DIR2_MAX_DATAPTR : Nat := 0xffffffff

structure SfEnv where
  sizeTooSmall : Bool
  startPastBlock : Bool
  startOffset : Nat
  dotOffset : Nat
  dotdotOffset : Nat
  count : Nat
  entryOff : Nat → Nat
  full : Nat → Bool
  blockEndOffset : Nat

/-- The `for (i = 0; i < sfp->hdr.count; i++)` loop of
`xfs_dir2_sf_getdents`; `rem` is `count - i`, `k` counts `filldir` calls. -/
def sf_entries_loop (e : SfEnv) :
    Nat → Nat → Nat → List Nat → Int × Option Nat × List Nat
  | 0, _, _, emitted => (0, some (e.blockEndOffset &&& 0x7fffffff), emitted)
  | rem + 1, i, k, emitted =>
    let off := e.entryOff i
    if e.startOffset > off then sf_entries_loop e rem (i + 1) k emitted
    else
      let emitted := emitted ++ [off &&& 0x7fffffff]
      if e.full k then (0, some (off &&& 0x7fffffff), emitted)
      else sf_entries_loop e rem (i + 1) (k + 1) emitted

/-- `xfs_dir2_sf_getdents(dp, dirent, offset, filldir)`: the `.` and `..`
emissions (each skipped when the cursor is already past it, each able to
stop the walk and store its masked offset) followed by the entry loop. -/
def xfs_dir2_sf_getdents (e : SfEnv) : Int × Option Nat × List Nat :=
  if e.sizeTooSmall then (-( EIO : Int), none, [])
  else if e.startPastBlock then (0, none, [])
  else if e.startOffset ≤ e.dotOffset then
    if e.full 0 then
      (0, some (e.dotOffset &&& 0x7fffffff), [e.dotOffset &&& 0x7fffffff])
    else if e.startOffset ≤ e.dotdotOffset then
      if e.full 1 then
        (0, some (e.dotdotOffset &&& 0x7fffffff),
          [e.dotOffset &&& 0x7fffffff, e.dotdotOffset &&& 0x7fffffff])
      else sf_entries_loop e e.count 0 2
        [e.dotOffset &&& 0x7fffffff, e.dotdotOffset &&& 0x7fffffff]
    else sf_entries_loop e e.count 0 1 [e.dotOffset &&& 0x7fffffff]
  else if e.startOffset ≤ e.dotdotOffset then
    if e.full 0 then
      (0, some (e.dotdotOffset &&& 0x7fffffff), [e.dotdotOffset &&& 0x7fffffff])
    else sf_entries_loop e e.count 0 1 [e.dotdotOffset &&& 0x7fffffff]
  else sf_entries_loop e e.count 0 0 []

structure BlockEnv where
  startPastBlock : Bool
  readErr : Nat
  events : List (Option Nat)
  full : Nat → Bool
  blockEndOffset : Nat

/-- The `while (ptr < endptr)` walk of `xfs_dir2_block_getdents`: `none`
events are unused regions or entries before the starting offset (no
emission), `some cook` is a live entry whose dataptr cookie is `cook`. -/
def block_entries_loop (e : BlockEnv) :
    List (Option Nat) → Nat → List Nat → Int × Option Nat × List Nat
  | [], _, emitted => (0, some (e.blockEndOffset &&& 0x7fffffff), emitted)
  | none :: rest, k, emitted => block_entries_loop e rest k emitted
  | some cook :: rest, k, emitted =>
    let emitted := emitted ++ [cook &&& 0x7fffffff]
    if e.full k then (0, some (cook &&& 0x7fffffff), emitted)
    else block_entries_loop e rest (k + 1) emitted

/-- `xfs_dir2_block_getdents(dp, dirent, offset, filldir)`. -/
def xfs_dir2_block_getdents (e : BlockEnv) : Int × Option Nat × List Nat :=
  if e.startPastBlock then (0, none, [])
  else if e.readErr ≠ 0 then ((e.readErr : Int), none, [])
  else block_entries_loop e e.events 0 []

structure LeafEnv where
  startPastMax : Bool
  events : List (Option Nat)
  full : Nat → Bool
  breakErr : Nat
  finalPastMax : Bool
  finalDataptr : Nat

/-- The entry walk of `xfs_dir2_leaf_getdents` (data blocks chained by the
bmap machinery): returns whether `filldir` stopped the walk and the emitted
cookies; the final `*offset` store happens in the caller either way. -/
def leaf_entries_loop (e : LeafEnv) :
    List (Option Nat) → Nat → List Nat → Bool × List Nat
  | [], _, emitted => (false, emitted)
  | none :: rest, k, emitted => leaf_entries_loop e rest k emitted
  | some dptr :: rest, k, emitted =>
    let emitted := emitted ++ [dptr &&& 0x7fffffff]
    if e.full k then (true, emitted)
    else leaf_entries_loop e rest (k + 1) emitted

/-- `xfs_dir2_leaf_getdents(dp, dirent, bufsize, offset, filldir)`: even
when the walk stops early (buffer full, or a bmap/read error recorded in
`breakErr`) the function falls through to the final masked `*offset`
store. -/
def xfs_dir2_leaf_getdents (e : LeafEnv) : Int × Option Nat × List Nat :=
  if e.startPastMax then (0, none, [])
  else
    let walk := leaf_entries_loop e e.events 0 []
    let stored := if e.finalPastMax then XFS_DIR2_MAX_DATAPTR &&& 0x7fffffff
      else e.finalDataptr &&& 0x7fffffff
    ((e.breakErr : Int), some stored, walk.2)

/-! ## Concrete fixtures used by witnesses and counterexample runs -/

def inode0 : Inode :=
  { i_ino := 0, di_mode := 0, di_nlink := 0, di_uid := 0, di_gid := 0,
    di_size := 0, di_atime := 0, di_mtime := 0, di_ctime := 0, entries := [] }

/-- An oracle environment in which every library call succeeds (and name
lookups in create paths report "no such entry", so creates can proceed). -/
def envOk : Env :=
  { now := 100, transAllocOk := true, reserveErr := 0, lookupErr := ENOENT,
    lookupIno := 0, igetErr := 0, igetInode := inode0, lookup2Err := ENOENT,
    iget2Err := 0, iget2Inode := inode0, inodeAllocErr := 0,
    freshInode := { inode0 with i_ino := 99 }, dirInitErr := 0,
    createnameErr := 0, removenameErr := 0, removename2Err := 0,
    replaceErr := 0, bunmapiErr := 0, bmapiErr := 0, bmapiNmap := 1,
    bmapiHole := false, getBufOk := true, iforkDsize := 64,
    bmapFinishErr := 0, commitErr := 0 }

def mpRW : Mount := { m_flags := 0, sb_blocksize := 512 }
def mpRO : Mount := { m_flags := XFS_MOUNT_RDONLY_FLAG, sb_blocksize := 512 }

/-- A directory with `nlink = 2` (no subdirectories) that still contains a
live regular-file entry `x`. -/
def dirWithFile : Inode :=
  { inode0 with
    i_ino := 50, di_mode := 0x41ED, di_nlink := 2, di_size := 64,
    entries := [{ name := "x", ftype := 1 }] }

/-- A parent directory holding `d` (a subdirectory) and `x` (a file). -/
def parentDir : Inode :=
  { inode0 with
    i_ino := 1, di_mode := 0x41ED, di_nlink := 3, di_size := 96,
    entries := [{ name := "d", ftype := 2 }, { name := "x", ftype := 1 }] }

/-- A regular file with a single link. -/
def fileInode1 : Inode :=
  { inode0 with i_ino := 7, di_mode := 0x81A4, di_nlink := 1, di_size := 10 }

/-! ## C1: rmdir emptiness -/

/-- **C1 (code bug).** `xfs_remove_dir` on a directory whose link count is 2
but which still contains the live entry `x`: the claim requires the
`NOT_EMPTY` error, yet the emptiness check trusts only the link count
(`xfs_dir_check_empty` returns 0, "assume empty", without scanning
`entries`) and the removal runs to completion, returning 0. -/
theorem remove_dir_ignores_live_entries :
    dirWithFile.entries ≠ [] ∧ dirWithFile.di_nlink ≤ 2 ∧
    S_ISDIR dirWithFile.di_mode = true ∧
    xfs_dir_check_empty dirWithFile = 0 ∧
    (xfs_remove_dir envOk mpRW parentDir "d" (some dirWithFile)).1 = 0 ∧
    (xfs_remove_dir envOk mpRW parentDir "d" (some dirWithFile)).1 ≠
      -(ENOTEMPTY : Int) := by
  decide

/-! ## C2: find_path reference counting -/

/-- A one-directory volume in which every name lookup fails with `ENOENT`. -/
def walkEnvNoEntry : WalkEnv :=
  { rootino := 1, mode := fun _ => S_IFDIR,
    lookupRes := fun _ _ => (ENOENT, 0), igetErr := fun _ => 0 }

/-- **C2 (code bug).** Walking `/x` when the lookup of `x` fails: the claim
requires the reference to the current directory inode (the root, inode 1)
to be released on this exit too, but `find_path` returns the lookup error
without calling `libxfs_iput(current, 0)`, leaving the root's reference
count one higher than before the call. -/
theorem find_path_leaks_reference_on_lookup_failure :
    (find_path walkEnvNoEntry ['/', 'x']).1.1 = (ENOENT : Int) ∧
    (find_path walkEnvNoEntry ['/', 'x']).1.2 = none ∧
    (find_path walkEnvNoEntry ['/', 'x']).2 1 = 1 ∧
    (find_path walkEnvNoEntry ['/', 'x']).2 1 ≠ 0 := by
  decide

/-! ## C3: cancel must undo in-memory modifications -/

/-- `envOk` except that `libxfs_bmap_finish` fails with `EIO`. -/
def envBmapFinishFails : Env := { envOk with bmapFinishErr := EIO }

/-- **C3 (code bug).** `xfs_remove_file` decrements the target's link count
before `libxfs_bmap_finish`; when that call fails the transaction is
canceled, but the in-memory link count (and ctime) stay modified: the
operation fails with `-EIO` while the file's nlink has gone from 1 to 0 —
an observable side effect of a canceled transaction. -/
theorem remove_file_cancel_leaves_nlink_modified :
    (xfs_remove_file envBmapFinishFails mpRW parentDir "x" (some fileInode1)).1 =
      -( EIO : Int) ∧
    (xfs_remove_file envBmapFinishFails mpRW parentDir "x" (some fileInode1)).2.2 =
      some { fileInode1 with di_nlink := 0, di_ctime := 100 } ∧
    fileInode1.di_nlink = 1 := by
  decide

/-! ## C6: read-only mounts reject every mutating entry point -/

/-- **C6.** On a read-only mount every mutating entry point — setattr
(mode/owner/time), truncate, write, create file, create dir, remove file,
remove dir, rename, link, symlink — returns `-EROFS` and leaves every inode
it was handed unchanged; the read-only check is the first check performed
(the C functions' `NULL`-argument guards have no counterpart here, since an
`Inode`/`Mount` value always exists). -/
theorem readonly_rejects_mutations (mp : Mount) (h : xfs_is_readonly mp = true) :
    (∀ env ip mode, xfs_setattr_mode env mp ip mode = (-(EROFS : Int), ip)) ∧
    (∀ env ip uid gid, xfs_setattr_owner env mp ip uid gid = (-(EROFS : Int), ip)) ∧
    (∀ env ip atv mtv, xfs_setattr_time env mp ip atv mtv = (-(EROFS : Int), ip)) ∧
    (∀ env ip size, xfs_truncate_file env mp ip size = (-(EROFS : Int), ip)) ∧
    (∀ env fuel ip offset size,
      xfs_write_file mp env fuel ip offset size = some (-(EROFS : Int), ip, [], [])) ∧
    (∀ env dp name mode rdev,
      xfs_create_file env mp dp name mode rdev = (-(EROFS : Int), dp, none)) ∧
    (∀ env dp name mode,
      xfs_create_dir env mp dp name mode = (-(EROFS : Int), dp, none)) ∧
    (∀ env dp name ipArg,
      xfs_remove_file env mp dp name ipArg = (-(EROFS : Int), dp, none)) ∧
    (∀ env dp name ipArg,
      xfs_remove_dir env mp dp name ipArg = (-(EROFS : Int), dp, none)) ∧
    (∀ env sdp sn ddp dn,
      xfs_rename_entry env mp sdp sn ddp dn = (-(EROFS : Int), sdp, ddp, none, none)) ∧
    (∀ env ip np nn, xfs_create_link env mp ip np nn = (-(EROFS : Int), ip, np)) ∧
    (∀ env p n t, xfs_create_symlink env mp p n t = (-(EROFS : Int), p, none)) := by
  refine ⟨?_, ?_, ?_, ?_, ?_, ?_, ?_, ?_, ?_, ?_, ?_, ?_⟩ <;>
    intros <;> simp [xfs_setattr_mode, xfs_setattr_owner, xfs_setattr_time,
      xfs_truncate_file, xfs_write_file, xfs_create_file, xfs_create_dir,
      xfs_remove_file, xfs_remove_dir, xfs_rename_entry, xfs_create_link,
      xfs_create_symlink, h]

/-- Witness for C6 on a concrete read-only mount. -/
theorem readonly_rejects_mutations_witness :
    xfs_setattr_mode envOk mpRO inode0 0o644 = (-(EROFS : Int), inode0) :=
  (readonly_rejects_mutations mpRO (by decide)).1 envOk inode0 0o644

/-! ## C9: link counts after a successful mkdir -/

/-- **C9.** Every successful `xfs_create_dir` call yields a new directory
whose link count is exactly 2 (`libxfs_inode_alloc` starts it at 1 and the
code increments it for `.`) and a parent whose link count is exactly one
higher than before (for the new `..` entry). -/
theorem create_dir_nlink (env : Env) (mp : Mount) (dp : Inode) (name : String)
    (mode : Nat) (dpOut ip : Inode)
    (h : xfs_create_dir env mp dp name mode = (0, dpOut, some ip)) :
    ip.di_nlink = 2 ∧ dpOut.di_nlink = dp.di_nlink + 1 := by
  simp only [xfs_create_dir] at h
  by_cases h1 : xfs_is_readonly mp = true
  · rw [if_pos h1] at h
    exact Option.noConfusion (congrArg (fun t => t.2.2) h)
  rw [if_neg h1] at h
  by_cases h2 : ¬S_ISDIR dp.di_mode = true
  · rw [if_pos h2] at h
    exact Option.noConfusion (congrArg (fun t => t.2.2) h)
  rw [if_neg h2] at h
  by_cases h3 : name.length = 0 ∨ name.length > MAXNAMELEN
  · rw [if_pos h3] at h
    exact Option.noConfusion (congrArg (fun t => t.2.2) h)
  rw [if_neg h3] at h
  by_cases h4 : env.lookupErr = 0
  · rw [if_pos h4] at h
    exact Option.noConfusion (congrArg (fun t => t.2.2) h)
  rw [if_neg h4] at h
  by_cases h5 : ¬env.transAllocOk = true
  · rw [if_pos h5] at h
    exact Option.noConfusion (congrArg (fun t => t.2.2) h)
  rw [if_neg h5] at h
  by_cases h6 : env.reserveErr ≠ 0
  · rw [if_pos h6] at h
    exact Option.noConfusion (congrArg (fun t => t.2.2) h)
  rw [if_neg h6] at h
  by_cases h7 : env.inodeAllocErr ≠ 0
  · rw [if_pos h7] at h
    exact Option.noConfusion (congrArg (fun t => t.2.2) h)
  rw [if_neg h7] at h
  by_cases h8 : env.dirInitErr ≠ 0
  · rw [if_pos h8] at h
    exact Option.noConfusion (congrArg (fun t => t.2.2) h)
  rw [if_neg h8] at h
  by_cases h9 : env.createnameErr ≠ 0
  · rw [if_pos h9] at h
    exact Option.noConfusion (congrArg (fun t => t.2.2) h)
  rw [if_neg h9] at h
  by_cases h10 : env.bmapFinishErr ≠ 0
  · rw [if_pos h10] at h
    exact Option.noConfusion (congrArg (fun t => t.2.2) h)
  rw [if_neg h10] at h
  by_cases h11 : env.commitErr ≠ 0
  · rw [if_pos h11] at h
    exact Option.noConfusion (congrArg (fun t => t.2.2) h)
  rw [if_neg h11] at h
  rw [Prod.mk.injEq, Prod.mk.injEq] at h
  obtain ⟨-, hdp, hip⟩ := h
  rw [Option.some.injEq] at hip
  subst hdp hip
  simp [ichgtime_mod_chg]

/-- Witness for C9: a concrete successful mkdir. -/
theorem create_dir_nlink_witness :
    ({ inode0 with i_ino := 99, di_mode := 0x41ED, di_nlink := 2 } : Inode).di_nlink
        = 2 ∧
    ({ parentDir with di_nlink := 4, di_mtime := 100, di_ctime := 100 } : Inode).di_nlink
        = parentDir.di_nlink + 1 :=
  create_dir_nlink envOk mpRW parentDir "sub" 0o755
    { parentDir with di_nlink := 4, di_mtime := 100, di_ctime := 100 }
    { inode0 with i_ino := 99, di_mode := 0x41ED, di_nlink := 2 }
    (by decide)

/-! ## C10: readdir cursors are masked to 31 bits -/

theorem masked_lt (x : Nat) : x &&& 0x7fffffff < 2 ^ 31 :=
  lt_of_le_of_lt Nat.and_le_right (by norm_num)

theorem sf_entries_loop_masked (e : SfEnv) :
    ∀ rem i k emitted, (∀ v ∈ emitted, v < 2 ^ 31) →
      (∀ v ∈ (sf_entries_loop e rem i k emitted).2.2, v < 2 ^ 31) ∧
      (∀ v, (sf_entries_loop e rem i k emitted).2.1 = some v → v < 2 ^ 31) := by
  intro rem
  induction rem with
  | zero =>
    intro i k emitted hem
    refine ⟨hem, ?_⟩
    intro v hv
    simp only [sf_entries_loop, Option.some.injEq] at hv
    exact hv ▸ masked_lt _
  | succ rem ih =>
    intro i k emitted hem
    simp only [sf_entries_loop]
    split
    · exact ih (i + 1) k emitted hem
    · split
      · refine ⟨?_, ?_⟩
        · intro v hv
          rcases List.mem_append.mp hv with hv | hv
          · exact hem v hv
          · simp only [List.mem_singleton] at hv
            exact hv ▸ masked_lt _
        · intro v hv
          simp only [Option.some.injEq] at hv
          exact hv ▸ masked_lt _
      · refine ih (i + 1) (k + 1) _ ?_
        intro v hv
        rcases List.mem_append.mp hv with hv | hv
        · exact hem v hv
        · simp only [List.mem_singleton] at hv
          exact hv ▸ masked_lt _

theorem block_entries_loop_masked (e : BlockEnv) :
    ∀ events k emitted, (∀ v ∈ emitted, v < 2 ^ 31) →
      (∀ v ∈ (block_entries_loop e events k emitted).2.2, v < 2 ^ 31) ∧
      (∀ v, (block_entries_loop e events k emitted).2.1 = some v → v < 2 ^ 31) := by
  intro events
  induction events with
  | nil =>
    intro k emitted hem
    refine ⟨hem, ?_⟩
    intro v hv
    simp only [block_entries_loop, Option.some.injEq] at hv
    exact hv ▸ masked_lt _
  | cons ev rest ih =>
    intro k emitted hem
    cases ev with
    | none => exact ih k emitted hem
    | some cook =>
      simp only [block_entries_loop]
      split
      · refine ⟨?_, ?_⟩
        · intro v hv
          rcases List.mem_append.mp hv with hv | hv
          · exact hem v hv
          · simp only [List.mem_singleton] at hv
            exact hv ▸ masked_lt _
        · intro v hv
          simp only [Option.some.injEq] at hv
          exact hv ▸ masked_lt _
      · refine ih (k + 1) _ ?_
        intro v hv
        rcases List.mem_append.mp hv with hv | hv
        · exact hem v hv
        · simp only [List.mem_singleton] at hv
          exact hv ▸ masked_lt _

theorem leaf_entries_loop_masked (e : LeafEnv) :
    ∀ events k emitted, (∀ v ∈ emitted, v < 2 ^ 31) →
      ∀ v ∈ (leaf_entries_loop e events k emitted).2, v < 2 ^ 31 := by
  intro events
  induction events with
  | nil => intro k emitted hem; exact hem
  | cons ev rest ih =>
    intro k emitted hem
    cases ev with
    | none => exact ih k emitted hem
    | some dptr =>
      simp only [leaf_entries_loop]
      have hstep : ∀ v ∈ emitted ++ [dptr &&& 0x7fffffff], v < 2 ^ 31 := by
        intro v hv
        rcases List.mem_append.mp hv with hv | hv
        · exact hem v hv
        · simp only [List.mem_singleton] at hv
          exact hv ▸ masked_lt _
      split
      · exact hstep
      · exact ih (k + 1) _ hstep

/-- **C10.** In every directory format — short-form, block, and leaf/node —
and for every input cursor and on-disk layout (all oracle-supplied), each
readdir variant only ever stores into `*offset`, and only ever passes to
the emitter, values masked with `0x7fffffff`; hence every cursor observable
at the public interface lies in `[0, 2^31)`. -/
theorem readdir_cursors_masked (sfe : SfEnv) (be : BlockEnv) (le : LeafEnv) :
    ((∀ v ∈ (xfs_dir2_sf_getdents sfe).2.2, v < 2 ^ 31) ∧
      (∀ v, (xfs_dir2_sf_getdents sfe).2.1 = some v → v < 2 ^ 31)) ∧
    ((∀ v ∈ (xfs_dir2_block_getdents be).2.2, v < 2 ^ 31) ∧
      (∀ v, (xfs_dir2_block_getdents be).2.1 = some v → v < 2 ^ 31)) ∧
    ((∀ v ∈ (xfs_dir2_leaf_getdents le).2.2, v < 2 ^ 31) ∧
      (∀ v, (xfs_dir2_leaf_getdents le).2.1 = some v → v < 2 ^ 31)) := by
  have hmem2 : ∀ a b : Nat,
      ∀ v ∈ [a &&& 0x7fffffff, b &&& 0x7fffffff], v < 2 ^ 31 := by
    intro a b v hv
    rcases List.mem_cons.mp hv with hv | hv
    · subst hv; exact masked_lt a
    · rw [List.mem_singleton] at hv
      subst hv; exact masked_lt b
  have hmem1 : ∀ a : Nat, ∀ v ∈ [a &&& 0x7fffffff], v < 2 ^ 31 := by
    intro a v hv
    rw [List.mem_singleton] at hv
    subst hv; exact masked_lt a
  have hsome : ∀ a v : Nat, some (a &&& 0x7fffffff) = some v → v < 2 ^ 31 := by
    intro a v hv
    rw [Option.some.injEq] at hv
    subst hv; exact masked_lt a
  refine ⟨?_, ?_, ?_⟩
  · unfold xfs_dir2_sf_getdents
    split_ifs
    · exact ⟨by simp, by simp⟩
    · exact ⟨by simp, by simp⟩
    · exact ⟨hmem1 _, hsome _⟩
    · exact ⟨hmem2 _ _, hsome _⟩
    · exact sf_entries_loop_masked sfe _ _ _ _ (hmem2 _ _)
    · exact sf_entries_loop_masked sfe _ _ _ _ (hmem1 _)
    · exact ⟨hmem1 _, hsome _⟩
    · exact sf_entries_loop_masked sfe _ _ _ _ (hmem1 _)
    · exact sf_entries_loop_masked sfe _ _ _ _ (by simp)
  · unfold xfs_dir2_block_getdents
    split_ifs
    · exact ⟨by simp, by simp⟩
    · exact ⟨by simp, by simp⟩
    · exact block_entries_loop_masked be _ _ _ (by simp)
  · unfold xfs_dir2_leaf_getdents
    split_ifs with h1 h2
    · exact ⟨by simp, by simp⟩
    · exact ⟨leaf_entries_loop_masked le _ _ _ (by simp), hsome _⟩
    · exact ⟨leaf_entries_loop_masked le _ _ _ (by simp), hsome _⟩

/-- A short-form directory walk whose third entry has a dataptr past
`2^31` and whose emitter reports "buffer full" on the third call. -/
def sfe0 : SfEnv :=
  { sizeTooSmall := false, startPastBlock := false, startOffset := 0,
    dotOffset := 0x40, dotdotOffset := 0x48, count := 1,
    entryOff := fun _ => 0x90000000, full := fun k => k == 2,
    blockEndOffset := 0x2000 }

def be0 : BlockEnv :=
  { startPastBlock := false, readErr := 0,
    events := [none, some 0x90000000], full := fun _ => false,
    blockEndOffset := 0xFFFFFFF0 }

def le0 : LeafEnv :=
  { startPastMax := false, events := [some 0x90000000],
    full := fun _ => false, breakErr := 0, finalPastMax := false,
    finalDataptr := 0xFFFFFFF0 }

/-- Witness for C10: the short-form walk stores the masked cursor
`0x10000000` for an entry whose raw dataptr was `0x90000000`. -/
theorem readdir_cursors_masked_witness :
    (xfs_dir2_sf_getdents sfe0).2.1 = some 0x10000000 ∧
      (0x10000000 : Nat) < 2 ^ 31 :=
  ⟨by decide, (readdir_cursors_masked sfe0 be0 le0).1.2 0x10000000 (by decide)⟩

/-! ## C7: write chunking, short counts, size extension -/

/-- Every per-transaction library call of the write loop succeeds, and
`libxfs_bmapi` maps at least 17 blocks — enough to cover a full 16-block
chunk regardless of the sub-block alignment of the current offset. -/
def WriteAllOk (env : Nat → WriteStep) : Prop :=
  ∀ k, (env k).transAllocOk = true ∧ (env k).reserveErr = 0 ∧
    (env k).bmapiErr = 0 ∧ (env k).nmap ≠ 0 ∧ (env k).mapHole = false ∧
    (env k).getBufOk = true ∧ (env k).bmapFinishErr = 0 ∧
    (env k).commitErr = 0 ∧ 17 ≤ (env k).mapBlockcount

/-- The two log facts at an error exit of the write loop: the freshly
logged chunk obeys the 16-block bound, and whenever some chunk had
committed the returned value is the committed byte count. -/
theorem write_err_exit (bsz size bw : Nat) (chunks committed : List Nat)
    (e rv : Int) (chunks2 committed2 : List Nat)
    (hch : ∀ c ∈ chunks, c ≤ 16 * bsz) (hbw : bw = committed.sum)
    (h1 : write_retval bw e = rv)
    (h3 : chunks ++ [min (size - bw) (bsz * 16)] = chunks2)
    (h4 : committed = committed2) :
    (∀ c ∈ chunks2, c ≤ 16 * bsz) ∧
      (0 < committed2.sum → rv = (committed2.sum : Int)) := by
  subst h1 h3 h4
  constructor
  · intro c hc
    rcases List.mem_append.mp hc with hc | hc
    · exact hch c hc
    · rw [List.mem_singleton] at hc
      have := Nat.min_le_right (size - bw) (bsz * 16)
      omega
  · intro hs
    unfold write_retval
    rw [if_pos (by omega)]
    exact congrArg (fun n : Nat => (n : Int)) hbw

theorem write_loop_logs (mp : Mount) (env : Nat → WriteStep) :
    ∀ fuel k ip bw cur size chunks committed rv ip2 chunks2 committed2,
      xfs_write_file_loop mp env fuel k ip bw cur size chunks committed =
        some (rv, ip2, chunks2, committed2) →
      (∀ c ∈ chunks, c ≤ 16 * mp.sb_blocksize) →
      bw = committed.sum →
      (∀ c ∈ chunks2, c ≤ 16 * mp.sb_blocksize) ∧
        (0 < committed2.sum → rv = (committed2.sum : Int)) := by
  intro fuel
  induction fuel with
  | zero =>
    intro k ip bw cur size chunks committed rv ip2 chunks2 committed2 h _ _
    simp [xfs_write_file_loop] at h
  | succ fuel ih =>
    intro k ip bw cur size chunks committed rv ip2 chunks2 committed2 h hch hbw
    simp only [xfs_write_file_loop] at h
    by_cases hlt : bw < size
    case neg =>
      rw [if_neg hlt, Option.some.injEq, Prod.mk.injEq, Prod.mk.injEq,
        Prod.mk.injEq] at h
      obtain ⟨h1, -, h3, h4⟩ := h
      subst h1 h3 h4
      exact ⟨hch, fun hs => congrArg (fun n : Nat => (n : Int)) hbw⟩
    case pos =>
      rw [if_pos hlt] at h
      by_cases c1 : ¬(env k).transAllocOk = true
      · rw [if_pos c1, Option.some.injEq, Prod.mk.injEq, Prod.mk.injEq,
          Prod.mk.injEq] at h
        obtain ⟨h1, -, h3, h4⟩ := h
        exact write_err_exit mp.sb_blocksize size bw chunks committed _ rv _ _
          hch hbw h1 h3 h4
      rw [if_neg c1] at h
      by_cases c2 : (env k).reserveErr ≠ 0
      · rw [if_pos c2, Option.some.injEq, Prod.mk.injEq, Prod.mk.injEq,
          Prod.mk.injEq] at h
        obtain ⟨h1, -, h3, h4⟩ := h
        exact write_err_exit mp.sb_blocksize size bw chunks committed _ rv _ _
          hch hbw h1 h3 h4
      rw [if_neg c2] at h
      by_cases c3 : (env k).bmapiErr ≠ 0
      · rw [if_pos c3, Option.some.injEq, Prod.mk.injEq, Prod.mk.injEq,
          Prod.mk.injEq] at h
        obtain ⟨h1, -, h3, h4⟩ := h
        exact write_err_exit mp.sb_blocksize size bw chunks committed _ rv _ _
          hch hbw h1 h3 h4
      rw [if_neg c3] at h
      by_cases c4 : (env k).nmap = 0 ∨ (env k).mapHole = true
      · rw [if_pos c4, Option.some.injEq, Prod.mk.injEq, Prod.mk.injEq,
          Prod.mk.injEq] at h
        obtain ⟨h1, -, h3, h4⟩ := h
        exact write_err_exit mp.sb_blocksize size bw chunks committed _ rv _ _
          hch hbw h1 h3 h4
      rw [if_neg c4] at h
      by_cases c5 : ¬(env k).getBufOk = true
      · rw [if_pos c5, Option.some.injEq, Prod.mk.injEq, Prod.mk.injEq,
          Prod.mk.injEq] at h
        obtain ⟨h1, -, h3, h4⟩ := h
        exact write_err_exit mp.sb_blocksize size bw chunks committed _ rv _ _
          hch hbw h1 h3 h4
      rw [if_neg c5] at h
      by_cases c6 : (env k).bmapFinishErr ≠ 0
      · rw [if_pos c6, Option.some.injEq, Prod.mk.injEq, Prod.mk.injEq,
          Prod.mk.injEq] at h
        obtain ⟨h1, -, h3, h4⟩ := h
        exact write_err_exit mp.sb_blocksize size bw chunks committed _ rv _ _
          hch hbw h1 h3 h4
      rw [if_neg c6] at h
      by_cases c7 : (env k).commitErr ≠ 0
      · rw [if_pos c7, Option.some.injEq, Prod.mk.injEq, Prod.mk.injEq,
          Prod.mk.injEq] at h
        obtain ⟨h1, -, h3, h4⟩ := h
        exact write_err_exit mp.sb_blocksize size bw chunks committed _ rv _ _
          hch hbw h1 h3 h4
      rw [if_neg c7] at h
      refine ih _ _ _ _ _ _ _ _ _ _ _ h ?_ ?_
      · intro c hc
        rcases List.mem_append.mp hc with hc | hc
        · exact hch c hc
        · rw [List.mem_singleton] at hc
          have := Nat.min_le_right (size - bw) (mp.sb_blocksize * 16)
          omega
      · rw [List.sum_append, List.sum_cons, List.sum_nil]
        omega

theorem write_loop_success (mp : Mount) (env : Nat → WriteStep)
    (hbsz : 0 < mp.sb_blocksize) (hok : WriteAllOk env) (offset size : Nat) :
    ∀ fuel k ip bw cur chunks committed,
      cur = offset + bw → bw ≤ size → size - bw < fuel →
      ∃ ip2 chunks2 committed2,
        xfs_write_file_loop mp env fuel k ip bw cur size chunks committed =
          some ((size : Int), ip2, chunks2, committed2) ∧
        (bw = size → ip2 = ip) ∧
        (bw < size → ip2.di_size =
          if ip.di_size < offset + size then offset + size else ip.di_size) := by
  intro fuel
  induction fuel with
  | zero =>
    intro k ip bw cur chunks committed _ _ hfu
    omega
  | succ fuel ih =>
    intro k ip bw cur chunks committed hcur hble hfu
    rcases Nat.lt_or_ge bw size with hlt | hge
    case inr =>
      obtain rfl : bw = size := by omega
      refine ⟨ip, chunks, committed, ?_, fun _ => rfl, fun hc => absurd hc (by omega)⟩
      simp only [xfs_write_file_loop]
      rw [if_neg (by omega)]
    case inl =>
      obtain ⟨ha, hr, hbm, hn, hh, hg, hbf, hcm, hmb⟩ := hok k
      simp only [xfs_write_file_loop, XFS_B_TO_FSBT, XFS_B_TO_FSB]
      rw [if_pos hlt, if_neg (by simp [ha]), if_neg (by simp [hr]),
        if_neg (by simp [hbm]), if_neg (by simp [hn, hh]), if_neg (by simp [hg]),
        if_neg (by simp [hbf]), if_neg (by simp [hcm])]
      have hcopy : min (min (size - bw) (mp.sb_blocksize * 16))
          ((env k).mapBlockcount * mp.sb_blocksize -
            (cur - cur / mp.sb_blocksize * mp.sb_blocksize)) =
          min (size - bw) (mp.sb_blocksize * 16) := by
        apply Nat.min_eq_left
        have e1 : mp.sb_blocksize * (cur / mp.sb_blocksize) + cur % mp.sb_blocksize
            = cur := Nat.div_add_mod cur _
        have e2 : cur % mp.sb_blocksize < mp.sb_blocksize := Nat.mod_lt _ hbsz
        have e3 : cur / mp.sb_blocksize * mp.sb_blocksize =
            mp.sb_blocksize * (cur / mp.sb_blocksize) := Nat.mul_comm _ _
        have e4 : 17 * mp.sb_blocksize ≤ (env k).mapBlockcount * mp.sb_blocksize :=
          Nat.mul_le_mul_right _ hmb
        have e5 : min (size - bw) (mp.sb_blocksize * 16) ≤ mp.sb_blocksize * 16 :=
          Nat.min_le_right _ _
        omega
      rw [hcopy]
      have hc1 : 1 ≤ min (size - bw) (mp.sb_blocksize * 16) := by
        have e5 : 0 < mp.sb_blocksize * 16 := by omega
        omega
      set c := min (size - bw) (mp.sb_blocksize * 16) with hcdef
      set ip1 := ichgtime_mod_chg
        (if cur + c > ip.di_size then { ip with di_size := cur + c } else ip)
        (env k).now with hip1
      have hip1sz : ip1.di_size = if ip.di_size < cur + c then cur + c
          else ip.di_size := by
        rw [hip1]
        unfold ichgtime_mod_chg
        split_ifs with hsp1
        · rfl
        · rfl
      have hcle : c ≤ size - bw := Nat.min_le_left _ _
      obtain ⟨ip2, ch2, cm2, hrec, hipeq, hipsz⟩ :=
        ih (k + 1) ip1 (bw + c) (cur + c) (chunks ++ [c]) (committed ++ [c])
          (by omega) (by omega) (by omega)
      refine ⟨ip2, ch2, cm2, hrec, fun heq => absurd heq (by omega), fun _ => ?_⟩
      rcases Nat.lt_or_ge (bw + c) size with h2 | h2
      · rw [hipsz h2, hip1sz]
        have : cur + c ≤ offset + size := by omega
        split_ifs <;> omega
      · have hbwc : bw + c = size := by omega
        rw [hipeq hbwc, hip1sz]
        have : cur + c = offset + size := by omega
        split_ifs <;> omega

/-- **C7.** (a) Every chunk the write loop hands to one transaction is at
most 16 filesystem blocks of data; (b) whenever at least one chunk has
committed, the return value is the number of bytes written so far (a short
count) rather than an error code; (c) with every library call succeeding
and enough fuel, the call returns exactly `size` and the inode's size field
is extended to `offset + size` whenever the write crossed the previous end
of file. -/
theorem write_file_spec :
    (∀ mp env fuel ip offset size rv ip2 chunks committed,
      xfs_write_file mp env fuel ip offset size =
        some (rv, ip2, chunks, committed) →
      (∀ c ∈ chunks, c ≤ 16 * mp.sb_blocksize) ∧
        (0 < committed.sum → rv = (committed.sum : Int))) ∧
    (∀ mp env fuel ip offset size,
      xfs_is_readonly mp = false → S_ISREG ip.di_mode = true →
      0 < mp.sb_blocksize → WriteAllOk env → size < fuel →
      ∃ ip2 chunks committed,
        xfs_write_file mp env fuel ip offset size =
          some ((size : Int), ip2, chunks, committed) ∧
        (0 < size → ip.di_size < offset + size → ip2.di_size = offset + size)) := by
  constructor
  · intro mp env fuel ip offset size rv ip2 chunks committed h
    simp only [xfs_write_file] at h
    by_cases h1 : xfs_is_readonly mp = true
    · rw [if_pos h1, Option.some.injEq, Prod.mk.injEq, Prod.mk.injEq,
        Prod.mk.injEq] at h
      obtain ⟨-, -, h3, h4⟩ := h
      subst h3 h4
      exact ⟨by simp, by simp⟩
    rw [if_neg h1] at h
    by_cases h2 : ¬S_ISREG ip.di_mode = true
    · rw [if_pos h2, Option.some.injEq, Prod.mk.injEq, Prod.mk.injEq,
        Prod.mk.injEq] at h
      obtain ⟨-, -, h3, h4⟩ := h
      subst h3 h4
      exact ⟨by simp, by simp⟩
    rw [if_neg h2] at h
    exact write_loop_logs mp env fuel 0 ip 0 offset size [] [] rv ip2 chunks
      committed h (by simp) (by simp)
  · intro mp env fuel ip offset size hro hreg hbsz hok hfu
    obtain ⟨ip2, ch2, cm2, hres, hipeq, hipsz⟩ :=
      write_loop_success mp env hbsz hok offset size fuel 0 ip 0 offset [] []
        (by omega) (by omega) (by omega)
    refine ⟨ip2, ch2, cm2, ?_, ?_⟩
    · simp only [xfs_write_file]
      rw [if_neg (by simp [hro]), if_neg (by simp [hreg])]
      exact hres
    · intro hpos hcross
      rw [hipsz (by omega), if_pos hcross]

def wstepOk : WriteStep :=
  { transAllocOk := true, reserveErr := 0, bmapiErr := 0, nmap := 1,
    mapHole := false, mapBlockcount := 17, getBufOk := true,
    bmapFinishErr := 0, commitErr := 0, now := 7 }

def regFile : Inode :=
  { inode0 with i_ino := 3, di_mode := 0x81A4, di_nlink := 1 }

/-- Witness for C7: a concrete 3-byte write at offset 0 into an empty
regular file on a 512-byte-block read-write mount. -/
theorem write_file_spec_witness :
    ∃ ip2 chunks committed,
      xfs_write_file mpRW (fun _ => wstepOk) 4 regFile 0 3 =
        some ((3 : Int), ip2, chunks, committed) ∧
      (0 < 3 → regFile.di_size < 0 + 3 → ip2.di_size = 0 + 3) :=
  write_file_spec.2 mpRW (fun _ => wstepOk) 4 regFile 0 3 (by decide) (by decide)
    (by decide)
    (by intro k; exact ⟨rfl, rfl, rfl, Nat.one_ne_zero, rfl, rfl, rfl, rfl,
      Nat.le.refl⟩)
    (by decide)

/-! ## C8: xfs_readfile returns the clamped length and zero-fills holes -/

theorem bufWrite_miss (env : ReadEnv) (blk srcoff : Nat) (buffer : Nat → Nat)
    (p copylen i : Nat) (h : i < p ∨ p + copylen ≤ i) :
    bufWrite env blk srcoff buffer p copylen i = buffer i := by
  unfold bufWrite
  rw [if_neg (by omega)]

theorem copy_blocks_ok (env : ReadEnv) (bsz : Nat) (rec : Extent)
    (offset len : Nat) (hread : ∀ b, env.readOk b = true) :
    ∀ cnt block buffer p,
      (copy_blocks env bsz rec offset len cnt block buffer p).1 = 0 := by
  intro cnt
  induction cnt with
  | zero => intro block buffer p; rfl
  | succ cnt ih =>
    intro block buffer p
    simp only [copy_blocks]
    rw [if_neg (by simp [hread])]
    exact ih (block + 1) _ _

/-- Frame property of the block-copy loop: a buffer index whose file offset
lies outside the extent's byte range is never written.  The invariant
relates the buffer position `p` to the current block's byte offset
(`offset + p` sits at the start of the remaining copy region), with escape
clauses for a cursor before the extent (`p = 0`) and for a region already
fully consumed (`offset + len` at or before the current block). -/
theorem copy_blocks_frame (env : ReadEnv) (bsz : Nat) (rec : Extent)
    (offset len : Nat) (hbsz : 0 < bsz) (i : Nat)
    (hout : offset + i < rec.br_startoff * bsz ∨
      (rec.br_startoff + rec.br_blockcount) * bsz ≤ offset + i) :
    ∀ cnt block buffer p,
      (block + cnt ≤ rec.br_blockcount ∨ cnt = 0) →
      ((offset + p = (rec.br_startoff + block) * bsz ∧
          offset ≤ (rec.br_startoff + block) * bsz) ∨
        (p = 0 ∧ (rec.br_startoff + block) * bsz ≤ offset) ∨
        offset + len ≤ (rec.br_startoff + block) * bsz) →
      (copy_blocks env bsz rec offset len cnt block buffer p).2 i = buffer i := by
  intro cnt
  induction cnt with
  | zero => intro block buffer p _ _; rfl
  | succ cnt ih =>
    intro block buffer p hbc hinv
    simp only [copy_blocks]
    by_cases hrd : ¬env.readOk (rec.br_startblock + block) = true
    · rw [if_pos hrd]
    · rw [if_neg hrd]
      have hbc1 : block + 1 ≤ rec.br_blockcount := by omega
      have hnbs_eq : (rec.br_startoff + (block + 1)) * bsz =
          (rec.br_startoff + block) * bsz + bsz := by ring
      have hbs_lower : rec.br_startoff * bsz ≤ (rec.br_startoff + block) * bsz :=
        Nat.mul_le_mul_right _ (by omega)
      have hnbs_le : (rec.br_startoff + (block + 1)) * bsz ≤
          (rec.br_startoff + rec.br_blockcount) * bsz :=
        Nat.mul_le_mul_right _ (by omega)
      have hbcs : block + 1 + cnt ≤ rec.br_blockcount := by omega
      split_ifs
      all_goals
        refine Eq.trans (ih (block + 1) _ _ (Or.inl hbcs)
          (by dsimp only; omega)) ?_
      all_goals
        first
          | rfl
          | exact bufWrite_miss env _ _ buffer _ _ i (by omega)

theorem copy_extent_to_buffer_ok (env : ReadEnv) (bsz : Nat) (rec : Extent)
    (buffer : Nat → Nat) (offset len : Nat)
    (hread : ∀ b, env.readOk b = true) :
    (copy_extent_to_buffer env bsz rec buffer offset len).1 = 0 := by
  unfold copy_extent_to_buffer
  exact copy_blocks_ok env bsz rec offset len hread _ _ _ _

theorem copy_extent_to_buffer_frame (env : ReadEnv) (bsz : Nat) (rec : Extent)
    (buffer : Nat → Nat) (offset len : Nat) (hbsz : 0 < bsz) (i : Nat)
    (hout : offset + i < rec.br_startoff * bsz ∨
      (rec.br_startoff + rec.br_blockcount) * bsz ≤ offset + i) :
    (copy_extent_to_buffer env bsz rec buffer offset len).2 i = buffer i := by
  unfold copy_extent_to_buffer
  have hmin : min rec.br_blockcount
      ((offset + len - rec.br_startoff * bsz - 1) / bsz + 1) ≤
      rec.br_blockcount := Nat.min_le_left _ _
  apply copy_blocks_frame env bsz rec offset len hbsz i hout
  · by_cases hoe : offset ≥ rec.br_startoff * bsz
    · rw [if_pos hoe]
      omega
    · rw [if_neg hoe]
      omega
  · by_cases hoe : offset ≥ rec.br_startoff * bsz
    · rw [if_pos hoe, if_pos hoe]
      have hadd : (rec.br_startoff + (offset - rec.br_startoff * bsz) / bsz) * bsz =
          rec.br_startoff * bsz + (offset - rec.br_startoff * bsz) / bsz * bsz := by
        ring
      have hdm : (offset - rec.br_startoff * bsz) / bsz * bsz ≤
          offset - rec.br_startoff * bsz := Nat.div_mul_le_self _ _
      omega
    · rw [if_neg hoe, if_neg hoe]
      have hadd : (rec.br_startoff + 0) * bsz = rec.br_startoff * bsz := by ring
      omega

theorem xfs_readfile_iter_ret (env : ReadEnv) (bsz : Nat)
    (hread : ∀ b, env.readOk b = true) :
    ∀ (extents : List Extent) (buffer : Nat → Nat) (offset len : Nat),
      (xfs_readfile_iter env bsz extents buffer offset len).1 = (len : Int) := by
  intro extents
  induction extents with
  | nil => intro buffer offset len; rfl
  | cons rec rest ih =>
    intro buffer offset len
    simp only [xfs_readfile_iter]
    by_cases hov : extent_overlaps_buffer bsz rec offset len = true
    · rw [if_pos hov,
        if_neg (by simp [copy_extent_to_buffer_ok env bsz rec buffer offset len hread])]
      exact ih _ _ _
    · rw [if_neg hov]
      exact ih _ _ _

theorem xfs_readfile_iter_frame (env : ReadEnv) (bsz : Nat) (hbsz : 0 < bsz) :
    ∀ (extents : List Extent) (buffer : Nat → Nat) (offset len i : Nat),
      (∀ rec ∈ extents, offset + i < rec.br_startoff * bsz ∨
        (rec.br_startoff + rec.br_blockcount) * bsz ≤ offset + i) →
      (xfs_readfile_iter env bsz extents buffer offset len).2 i = buffer i := by
  intro extents
  induction extents with
  | nil => intro buffer offset len i _; rfl
  | cons rec rest ih =>
    intro buffer offset len i hout
    have hhead := hout rec (by simp)
    have htail : ∀ r ∈ rest, offset + i < r.br_startoff * bsz ∨
        (r.br_startoff + r.br_blockcount) * bsz ≤ offset + i :=
      fun r hr => hout r (by simp [hr])
    simp only [xfs_readfile_iter]
    by_cases hov : extent_overlaps_buffer bsz rec offset len = true
    · rw [if_pos hov]
      by_cases herr : (copy_extent_to_buffer env bsz rec buffer offset len).1 ≠ 0
      · rw [if_pos herr]
        exact copy_extent_to_buffer_frame env bsz rec buffer offset len hbsz i hhead
      · rw [if_neg herr]
        exact Eq.trans (ih _ offset len i htail)
          (copy_extent_to_buffer_frame env bsz rec buffer offset len hbsz i hhead)
    · rw [if_neg hov]
      exact ih _ offset len i htail

/-- The clamp-then-iterate tail shared by `xfs_readfile_extents` and
`xfs_readfile_btree`, under an `offset < size` cursor and all disk reads
succeeding: the iteration returns the clamped length, and bytes of the
returned range not covered by any extent are left untouched. -/
theorem readfile_clamp_iter_spec (env : ReadEnv) (bsz : Nat) (hbsz : 0 < bsz)
    (hread : ∀ b, env.readOk b = true) (extents : List Extent)
    (buffer : Nat → Nat) (offset len size : Nat) (hlt : offset < size) :
    (xfs_readfile_iter env bsz extents buffer offset
        (if offset + len > size then size - offset else len)).1 =
      ((min len (size - offset) : Nat) : Int) ∧
    ∀ i, i < min len (size - offset) →
      (∀ rec ∈ extents, ¬(rec.br_startoff * bsz ≤ offset + i ∧
          offset + i < (rec.br_startoff + rec.br_blockcount) * bsz)) →
      (xfs_readfile_iter env bsz extents buffer offset
          (if offset + len > size then size - offset else len)).2 i =
        buffer i := by
  have hlen : (if offset + len > size then size - offset else len) =
      min len (size - offset) := by
    split_ifs with hc <;> omega
  rw [hlen]
  refine ⟨xfs_readfile_iter_ret env bsz hread extents buffer offset _, ?_⟩
  intro i hi hnc
  refine xfs_readfile_iter_frame env bsz hbsz extents buffer offset _ i ?_
  intro r hr
  have := hnc r hr
  omega

/-- **C8.** For every regular-file inode in extents or B-tree format (with
the B-tree fork either loaded or loadable without error) and with every
disk read succeeding: `xfs_readfile` returns 0 when `offset` is at or past
the file size, otherwise it returns `min len (size - offset)`; and every
byte of the returned range whose file offset is not covered by any extent
(a hole) is 0 in the output buffer. -/
theorem readfile_spec (env : ReadEnv) (bsz : Nat) (ip : FileInode)
    (buffer : Nat → Nat) (offset len : Nat)
    (hbsz : 0 < bsz) (hread : ∀ b, env.readOk b = true)
    (hfmt : ip.di_format = DinodeFmt.EXTENTS ∨
      (ip.di_format = DinodeFmt.BTREE ∧
        (ip.ifExtentsLoaded = true ∨ env.ireadErr = 0)))
    (hreg : ip.di_mode &&& S_IFREG ≠ 0) :
    (ip.di_size ≤ offset → (xfs_readfile env bsz ip buffer offset len).1 = 0) ∧
      (offset < ip.di_size →
        (xfs_readfile env bsz ip buffer offset len).1 =
          ((min len (ip.di_size - offset) : Nat) : Int) ∧
        ∀ i, i < min len (ip.di_size - offset) →
          (∀ rec ∈ ip.extents,
            ¬(rec.br_startoff * bsz ≤ offset + i ∧
              offset + i < (rec.br_startoff + rec.br_blockcount) * bsz)) →
          (xfs_readfile env bsz ip buffer offset len).2 i = 0) := by
  have hmode : ¬((ip.di_mode &&& S_IFREG == 0) = true) := by
    simp only [beq_iff_eq]
    exact hreg
  have hzero : ∀ i, i < len →
      (fun j => if j < len then 0 else buffer j) i = 0 := by
    intro i hi
    simp only [if_pos hi]
  rcases hfmt with hfmt | ⟨hfmt, hbt⟩
  · have key : xfs_readfile env bsz ip buffer offset len =
        xfs_readfile_extents env bsz ip
          (fun j => if j < len then 0 else buffer j) offset len := by
      unfold xfs_readfile
      rw [if_neg hmode, hfmt]
    rw [key]
    unfold xfs_readfile_extents
    constructor
    · intro hge
      rw [if_pos hge]
    · intro hlt
      rw [if_neg (by omega)]
      obtain ⟨h1, h2⟩ := readfile_clamp_iter_spec env bsz hbsz hread ip.extents
        (fun j => if j < len then 0 else buffer j) offset len ip.di_size hlt
      refine ⟨h1, ?_⟩
      intro i hi hnc
      rw [h2 i hi hnc]
      have hmin := Nat.min_le_left len (ip.di_size - offset)
      exact hzero i (by omega)
  · have key : xfs_readfile env bsz ip buffer offset len =
        xfs_readfile_btree env bsz ip
          (fun j => if j < len then 0 else buffer j) offset len := by
      unfold xfs_readfile
      rw [if_neg hmode, hfmt]
    rw [key]
    unfold xfs_readfile_btree
    constructor
    · intro hge
      rw [if_pos hge]
    · intro hlt
      rw [if_neg (by omega),
        if_neg (by rcases hbt with h | h <;> simp [h])]
      obtain ⟨h1, h2⟩ := readfile_clamp_iter_spec env bsz hbsz hread ip.extents
        (fun j => if j < len then 0 else buffer j) offset len ip.di_size hlt
      refine ⟨h1, ?_⟩
      intro i hi hnc
      rw [h2 i hi hnc]
      have hmin := Nat.min_le_left len (ip.di_size - offset)
      exact hzero i (by omega)

def rdEnv : ReadEnv :=
  { readOk := fun _ => true, block := fun _ o => o + 1, ireadErr := 0 }

def rdFile : FileInode :=
  { di_mode := 0x81A4, di_size := 6, di_format := DinodeFmt.EXTENTS,
    extents := [{ br_startoff := 0, br_startblock := 5, br_blockcount := 1 }],
    ifExtentsLoaded := true }

/-- Witness for C8: a 6-byte extents-format regular file on 4-byte blocks
whose single extent covers bytes 0–3, read at offset 2 with a 10-byte
request. -/
theorem readfile_spec_witness :
    (rdFile.di_size ≤ 2 → (xfs_readfile rdEnv 4 rdFile (fun _ => 9) 2 10).1 = 0) ∧
      (2 < rdFile.di_size →
        (xfs_readfile rdEnv 4 rdFile (fun _ => 9) 2 10).1 =
          ((min 10 (rdFile.di_size - 2) : Nat) : Int) ∧
        ∀ i, i < min 10 (rdFile.di_size - 2) →
          (∀ rec ∈ rdFile.extents,
            ¬(rec.br_startoff * 4 ≤ 2 + i ∧
              2 + i < (rec.br_startoff + rec.br_blockcount) * 4)) →
          (xfs_readfile rdEnv 4 rdFile (fun _ => 9) 2 10).2 i = 0) :=
  readfile_spec rdEnv 4 rdFile (fun _ => 9) 2 10 (by decide)
    (fun _ => rfl) (Or.inl rfl) (by decide)

end FuseXfs
